import Mathlib

/-!
# Elyassi Exchange: appointment store, availability and lifecycle handlers

A shallow embedding of `server.js`.  Every handler of the server reads the whole
JSON store, decides, mutates the parsed value and writes it back; here a handler
is a function from the store it read (plus the request and the values it draws
from the runtime: fresh identifiers and the clock) to either the error message
it answers with (nothing is written) or the store it writes together with the
appointment it returns.

Representation choices:
* strings of the request that may be missing are `String`, the empty string
  standing for every falsy value (`undefined` and `""` take the same branch of
  each `!x`, `x || y` and `if (x)` in the source);
* `readStore` coerces every status outside the three known ones to
  `confirmed` before a handler sees the store, so `Status` enumerates the three;
* `reservedCounts` is the insertion-ordered key/value list of the object built
  by `getAvailability`; an absent key reads as `none` (`undefined`);
* `Date` and `process.env` belong to the runtime and are carried by `Env`;
  `localeCompare` and `toLowerCase` are carried by `Locale`;
* `array.sort` is a stable sort, modelled by insertion sort;
* rates and margins are exact rationals.
-/

namespace ElyassiExchange

/-! ## Data model -/

/-- Status of an appointment: the three values `readStore` lets through. -/
inductive Status where
  | confirmed
  | rescheduled
  | canceled
deriving DecidableEq, Repr

/-- The `documentFile` record stored with an appointment. -/
structure DocumentFile where
  originalName : String
  fileName : String
  mimeType : String
  size : Nat
deriving DecidableEq, Repr

/-- One element of `store.appointments`. -/
structure Appointment where
  id : String
  firstName : String
  lastName : String
  email : String
  documentType : String
  documentNumber : String
  documentFile : DocumentFile
  manageToken : String
  date : String
  timeSlot : String
  status : Status
  createdAt : Nat
  updatedAt : Nat
deriving DecidableEq, Repr

/-- The `settings` object of the store. -/
structure Settings where
  slotCapacity : Int
  buyMargin : ℚ
  sellMargin : ℚ
deriving DecidableEq, Repr

/-- The JSON document kept in `data/store.json`. -/
structure Store where
  appointments : List Appointment
  blockedDates : List String
  settings : Settings
deriving DecidableEq, Repr

/-- One entry of `TIME_SLOTS`. -/
structure TimeSlot where
  value : String
  label : String
deriving DecidableEq, Repr

/-- The constant `TIME_SLOTS`. -/
def TIME_SLOTS : List TimeSlot :=
  [ { value := "09:00", label := "09:00 - 10:00" },
    { value := "10:00", label := "10:00 - 11:00" },
    { value := "11:00", label := "11:00 - 12:00" },
    { value := "12:00", label := "12:00 - 13:00" },
    { value := "13:00", label := "13:00 - 14:00" },
    { value := "14:00", label := "14:00 - 15:00" },
    { value := "15:00", label := "15:00 - 16:00" },
    { value := "16:00", label := "16:00 - 17:00" } ]

/-- The constant `DEFAULT_CLOSED_WEEKDAYS`. -/
def DEFAULT_CLOSED_WEEKDAYS : List Int := [5]

/-- The constant `DEFAULT_STORE`. -/
def DEFAULT_STORE : Store :=
  { appointments := [],
    blockedDates := [],
    settings := { slotCapacity := 6, buyMargin := 12 / 1000, sellMargin := 18 / 1000 } }

/-- What the handlers take from the runtime rather than from the repository:
`CLOSED_WEEKDAYS` is `process.env.CLOSED_WEEKDAYS` (`none` when unset);
`toInteger s` is `Number(s.trim())` when `Number.isInteger` accepts it and
`none` otherwise; `getDay d` is `new Date(d + "T00:00:00").getDay()`, with
`none` for the `NaN` of an invalid date. -/
structure Env where
  CLOSED_WEEKDAYS : Option String
  toInteger : String → Option Int
  getDay : String → Option Nat

/-! ## Validation helpers -/

/-- The test `/^\d{4}-\d{2}-\d{2}$/.test(date)`. -/
def dateFormat (date : String) : Bool :=
  match date.toList with
  | [y1, y2, y3, y4, s1, m1, m2, s2, d1, d2] =>
    y1.isDigit && y2.isDigit && y3.isDigit && y4.isDigit && s1 == '-' &&
      m1.isDigit && m2.isDigit && s2 == '-' && d1.isDigit && d2.isDigit
  | _ => false

/-- The test `TIME_SLOTS.some((slot) => slot.value === timeSlot)`. -/
def validSlot (timeSlot : String) : Bool :=
  TIME_SLOTS.any (fun slot => slot.value == timeSlot)

/-- The function `closedWeekdays`. -/
def closedWeekdays (env : Env) : List Int :=
  match env.CLOSED_WEEKDAYS with
  | none => DEFAULT_CLOSED_WEEKDAYS
  | some raw =>
    if raw = "" then DEFAULT_CLOSED_WEEKDAYS
    else (raw.splitOn ",").filterMap env.toInteger

/-- The function `isClosedDate`. -/
def isClosedDate (env : Env) (dateIso : String) (blockedDates : List String) : Bool :=
  if blockedDates.contains dateIso then true
  else
    match env.getDay dateIso with
    | none => false
    | some day => (closedWeekdays env).contains (day : Int)

/-! ## Availability -/

/-- Property read `counts[key]` on the object under construction. -/
def getKey (counts : List (String × Nat)) (key : String) : Option Nat :=
  match counts with
  | [] => none
  | (k, v) :: rest => if k = key then some v else getKey rest key

/-- Property write `counts[key] = value`. -/
def setKey (counts : List (String × Nat)) (key : String) (value : Nat) : List (String × Nat) :=
  match counts with
  | [] => [(key, value)]
  | (k, v) :: rest => if k = key then (k, value) :: rest else (k, v) :: setKey rest key value

/-- The expression `x || 0` on a count that may be `undefined`. -/
def orZero (x : Option Nat) : Nat :=
  match x with
  | none => 0
  | some n => n

/-- The comparison `x >= capacity` on a count that may be `undefined`:
`undefined >= n` is `false` for every number `n`. -/
def geCapacity (x : Option Nat) (capacity : Int) : Bool :=
  match x with
  | none => false
  | some n => decide (capacity ≤ (n : Int))

/-- Result of `getAvailability`. -/
structure Availability where
  closed : Bool
  slotCapacity : Int
  reservedCounts : List (String × Nat)
deriving DecidableEq, Repr

/-- The function `getAvailability`. -/
def getAvailability (env : Env) (date : String) (store : Store) : Availability :=
  let reservedCounts :=
    (store.appointments.filter
        (fun item => item.date == date && item.status != Status.canceled)).foldl
      (fun counts item =>
        setKey counts item.timeSlot (orZero (getKey counts item.timeSlot) + 1))
      []
  { closed := isClosedDate env date store.blockedDates,
    slotCapacity := store.settings.slotCapacity,
    reservedCounts := reservedCounts }

/-! ## Lifecycle handlers -/

/-- Body and file of `POST /api/appointments`. -/
structure CreateRequest where
  firstName : String
  lastName : String
  email : String
  documentType : String
  documentNumber : String
  date : String
  timeSlot : String
  file : Option DocumentFile
deriving DecidableEq, Repr

/-- Values the create handler draws while building the appointment: two
`randomUUID()` results and two `Date.now()` readings. -/
structure Fresh where
  id : String
  manageToken : String
  createdAt : Nat
  updatedAt : Nat
deriving DecidableEq, Repr

/-- In-place update of the object returned by
`appointments.find((item) => item.id === id)`: the first element with that id
is replaced by its image, every other element is left alone. -/
def updateFound (id : String) (f : Appointment → Appointment) :
    List Appointment → List Appointment
  | [] => []
  | item :: rest =>
    if item.id == id then f item :: rest else item :: updateFound id f rest

/-- The assignments of the reschedule handler on the found appointment:
`date`, `timeSlot`, `status = "rescheduled"`, `updatedAt = Date.now()`. -/
def applyReschedule (date timeSlot : String) (now : Nat) (item : Appointment) : Appointment :=
  { item with
    date := date, timeSlot := timeSlot, status := Status.rescheduled, updatedAt := now }

/-- The assignments of the cancel handler on the found appointment:
`status = "canceled"`, `updatedAt = Date.now()`. -/
def applyCancel (now : Nat) (item : Appointment) : Appointment :=
  { item with status := Status.canceled, updatedAt := now }

/-- Status named by a request string, as accepted by
`["confirmed", "rescheduled", "canceled"].includes(status)`. -/
def statusOfString (status : String) : Option Status :=
  if status = "confirmed" then some Status.confirmed
  else if status = "rescheduled" then some Status.rescheduled
  else if status = "canceled" then some Status.canceled
  else none

/-- The assignments of the admin edit handler on the found appointment, made
once every check has passed: `status`, `date` and `timeSlot` each only when the
request carries it, then `updatedAt = Date.now()`. -/
def applyAdminEdit (status date timeSlot : String) (now : Nat) (item : Appointment) :
    Appointment :=
  { item with
    status := if status ≠ "" then (statusOfString status).getD item.status else item.status,
    date := if date ≠ "" then date else item.date,
    timeSlot := if timeSlot ≠ "" then timeSlot else item.timeSlot,
    updatedAt := now }

/-- The handler of `POST /api/appointments`. -/
def createAppointment (env : Env) (store : Store) (req : CreateRequest) (fresh : Fresh) :
    Except String (Store × Appointment) :=
  if req.firstName = "" ∨ req.lastName = "" ∨ req.email = "" ∨ req.documentType = "" ∨
      req.documentNumber = "" ∨ req.date = "" ∨ req.timeSlot = "" then
    .error "Please fill out all required fields."
  else
    match req.file with
    | none => .error "Document file is required."
    | some file =>
      if !dateFormat req.date then .error "Invalid date format."
      else if !validSlot req.timeSlot then .error "Invalid time slot selected."
      else if isClosedDate env req.date store.blockedDates then
        .error "Selected date is closed."
      else
        let availability := getAvailability env req.date store
        let currentCount := orZero (getKey availability.reservedCounts req.timeSlot)
        if store.settings.slotCapacity ≤ (currentCount : Int) then
          .error "Selected time slot is full."
        else
          let appointment : Appointment :=
            { id := fresh.id,
              firstName := req.firstName,
              lastName := req.lastName,
              email := req.email,
              documentType := req.documentType,
              documentNumber := req.documentNumber,
              documentFile := file,
              manageToken := fresh.manageToken,
              date := req.date,
              timeSlot := req.timeSlot,
              status := Status.confirmed,
              createdAt := fresh.createdAt,
              updatedAt := fresh.updatedAt }
          .ok ({ store with appointments := store.appointments ++ [appointment] },
            appointment)

/-- The handler of `PATCH /api/appointments/:id/reschedule`. -/
def rescheduleAppointment (env : Env) (store : Store) (id token date timeSlot : String)
    (now : Nat) : Except String (Store × Appointment) :=
  if token = "" ∨ date = "" ∨ timeSlot = "" then
    .error "Token, date, and time slot are required."
  else if !dateFormat date then .error "Invalid date format."
  else if !validSlot timeSlot then .error "Invalid time slot."
  else
    match store.appointments.find? (fun item => item.id == id) with
    | none => .error "Invalid token."
    | some appointment =>
      if appointment.manageToken ≠ token then .error "Invalid token."
      else if isClosedDate env date store.blockedDates then
        .error "Selected date is closed."
      else
        let availability := getAvailability env date store
        if geCapacity (getKey availability.reservedCounts timeSlot)
            store.settings.slotCapacity then
          .error "Selected time slot is full."
        else
          .ok ({ store with
                appointments :=
                  updateFound id (applyReschedule date timeSlot now) store.appointments },
            applyReschedule date timeSlot now appointment)

/-- The handler of `POST /api/appointments/:id/cancel`. -/
def cancelAppointment (store : Store) (id token : String) (now : Nat) :
    Except String (Store × Appointment) :=
  if token = "" then .error "Token is required."
  else
    match store.appointments.find? (fun item => item.id == id) with
    | none => .error "Invalid token."
    | some appointment =>
      if appointment.manageToken ≠ token then .error "Invalid token."
      else
        .ok ({ store with appointments := updateFound id (applyCancel now) store.appointments },
          applyCancel now appointment)

/-- The handler of `PATCH /api/admin/appointments/:id`. -/
def adminEditAppointment (env : Env) (store : Store) (id status date timeSlot : String)
    (now : Nat) : Except String (Store × Appointment) :=
  match store.appointments.find? (fun item => item.id == id) with
  | none => .error "Appointment not found."
  | some appointment =>
    if date ≠ "" ∧ !dateFormat date then .error "Invalid date format."
    else if timeSlot ≠ "" ∧ !validSlot timeSlot then .error "Invalid time slot."
    else
      let nextDate := if date ≠ "" then date else appointment.date
      let nextTime := if timeSlot ≠ "" then timeSlot else appointment.timeSlot
      let availability := getAvailability env nextDate store
      let currentCount : Int := (orZero (getKey availability.reservedCounts nextTime) : Nat)
      let isSameSlot := appointment.date == nextDate && appointment.timeSlot == nextTime
      let adjustedCount : Int := if isSameSlot then currentCount - 1 else currentCount
      if (date ≠ "" ∨ timeSlot ≠ "") ∧ isClosedDate env nextDate store.blockedDates then
        .error "Selected date is closed."
      else if (date ≠ "" ∨ timeSlot ≠ "") ∧ store.settings.slotCapacity ≤ adjustedCount then
        .error "Selected time slot is full."
      else if status ≠ "" ∧ statusOfString status = none then .error "Invalid status."
      else
        .ok ({ store with
              appointments :=
                updateFound id (applyAdminEdit status date timeSlot now) store.appointments },
          applyAdminEdit status date timeSlot now appointment)

/-! ## Reference notions used by the statements -/

/-- An appointment holds a place at the pair (date, time slot): it is booked on
that pair and its status is not canceled. -/
def reserves (date timeSlot : String) (item : Appointment) : Bool :=
  item.date == date && item.timeSlot == timeSlot && item.status != Status.canceled

/-- Number of appointments of the store with the given date and time slot whose
status is not canceled, counted directly on the appointment list. -/
def reservedCount (store : Store) (date timeSlot : String) : Nat :=
  store.appointments.countP (reserves date timeSlot)

/-- The count the client reads for a slot: `reservedCounts[timeSlot] || 0`. -/
def reportedCount (env : Env) (store : Store) (date timeSlot : String) : Nat :=
  orZero (getKey (getAvailability env date store).reservedCounts timeSlot)

/-- Every (date, time slot) pair holds at most `slotCapacity` non-canceled
appointments. -/
def WithinCapacity (store : Store) : Prop :=
  ∀ date timeSlot : String, (reservedCount store date timeSlot : Int) ≤ store.settings.slotCapacity

/-- A create request that passes every check made before the store is read:
the seven text fields are present, a document file is attached, the date has
the form of four, two and two digits, and the slot is one of `TIME_SLOTS`. -/
def CreateRequest.wellFormed (req : CreateRequest) : Prop :=
  req.firstName ≠ "" ∧ req.lastName ≠ "" ∧ req.email ≠ "" ∧ req.documentType ≠ "" ∧
    req.documentNumber ≠ "" ∧ req.date ≠ "" ∧ req.timeSlot ≠ "" ∧ req.file.isSome = true ∧
    dateFormat req.date = true ∧ validSlot req.timeSlot = true

instance (req : CreateRequest) : Decidable req.wellFormed := by
  unfold CreateRequest.wellFormed
  infer_instance

/-- Consecutive create requests: each one is served on the store written by
the one before it, and the first error stops the run. -/
def createAll (env : Env) (store : Store) :
    List (CreateRequest × Fresh) → Except String Store
  | [] => .ok store
  | (req, fresh) :: rest =>
    match createAppointment env store req fresh with
    | .error message => .error message
    | .ok (written, _) => createAll env written rest

/-- Content of the store file once a handler has answered: the store it wrote,
or the store it read when it answered with an error (no error path writes). -/
def storeAfter (store : Store) (result : Except String (Store × Appointment)) : Store :=
  match result with
  | .error _ => store
  | .ok (written, _) => written

/-! ## A concrete runtime for examples -/

/-- Value of a decimal digit character. -/
def digitValue (c : Char) : Nat := c.toNat - 48

/-- Weekday (0 = Sunday) of the civil day `year-month-day`, days past the end
of the month running into the next one. -/
def weekdayOfCivil (year month day : Nat) : Nat :=
  let y : Int := if month ≤ 2 then (year : Int) - 1 else year
  let era : Int := y / 400
  let yoe : Int := y - era * 400
  let mp : Int := if month ≤ 2 then (month : Int) + 9 else (month : Int) - 3
  let doy : Int := (153 * mp + 2) / 5 + (day : Int) - 1
  let doe : Int := yoe * 365 + yoe / 4 - yoe / 100 + doy
  let days : Int := era * 146097 + doe - 719468
  ((days + 4) % 7).toNat

/-- A model of `new Date(d + "T00:00:00").getDay()` on strings of the form
`YYYY-MM-DD`: months 1 to 12 and days 1 to 31 are accepted, anything else is an
invalid date. -/
def civilGetDay (date : String) : Option Nat :=
  if dateFormat date then
    match date.toList with
    | [y1, y2, y3, y4, _, m1, m2, _, d1, d2] =>
      let year := digitValue y1 * 1000 + digitValue y2 * 100 + digitValue y3 * 10 + digitValue y4
      let month := digitValue m1 * 10 + digitValue m2
      let day := digitValue d1 * 10 + digitValue d2
      if 1 ≤ month ∧ month ≤ 12 ∧ 1 ≤ day ∧ day ≤ 31 then some (weekdayOfCivil year month day)
      else none
    | _ => none
  else none

/-- A runtime with `CLOSED_WEEKDAYS` unset: Fridays are closed. -/
def defaultEnv : Env :=
  { CLOSED_WEEKDAYS := none,
    toInteger := fun s => s.toInt?,
    getDay := civilGetDay }

/-! ## Sample data -/

/-- An uploaded document. -/
def sampleFile : DocumentFile :=
  { originalName := "passport.pdf", fileName := "f1.pdf", mimeType := "application/pdf",
    size := 1024 }

/-- A stored appointment with the given identity, place and status. -/
def sampleAppointment (id token date timeSlot : String) (status : Status) (createdAt : Nat) :
    Appointment :=
  { id := id, firstName := "Sara", lastName := "Amini", email := "sara@example.com",
    documentType := "passport", documentNumber := "P123", documentFile := sampleFile,
    manageToken := token, date := date, timeSlot := timeSlot, status := status,
    createdAt := createdAt, updatedAt := createdAt }

/-- A store with the default margins, no blocked date and the given capacity
and appointments. -/
def sampleStore (capacity : Int) (appointments : List Appointment) : Store :=
  { appointments := appointments,
    blockedDates := [],
    settings := { DEFAULT_STORE.settings with slotCapacity := capacity } }

/-- A complete create request for the given date and slot. -/
def sampleRequest (date timeSlot : String) : CreateRequest :=
  { firstName := "Omid", lastName := "Karimi", email := "omid@example.com",
    documentType := "passport", documentNumber := "P456", date := date, timeSlot := timeSlot,
    file := some sampleFile }

/-- Identifiers and clock readings drawn by one create. -/
def sampleFresh (id token : String) (now : Nat) : Fresh :=
  { id := id, manageToken := token, createdAt := now, updatedAt := now }

/-- Capacity 2; `a` stands alone on Monday 2024-01-01 at 09:00 and `b` alone on
Tuesday 2024-01-02 at 10:00. -/
def twoSlotStore : Store :=
  sampleStore 2
    [ sampleAppointment "a" "ta" "2024-01-01" "09:00" Status.confirmed 1,
      sampleAppointment "b" "tb" "2024-01-02" "10:00" Status.confirmed 2 ]

/-- Capacity 1; the slot of Monday 2024-01-01 at 09:00 holds the confirmed `b`
and the canceled `a`. -/
def reactivationStore : Store :=
  sampleStore 1
    [ sampleAppointment "a" "ta" "2024-01-01" "09:00" Status.canceled 1,
      sampleAppointment "b" "tb" "2024-01-01" "09:00" Status.confirmed 2 ]

/-- Capacity 2; `a` is canceled, `b` is confirmed on another day. -/
def canceledStore : Store :=
  sampleStore 2
    [ sampleAppointment "a" "ta" "2024-01-01" "09:00" Status.canceled 1,
      sampleAppointment "b" "tb" "2024-01-02" "10:00" Status.confirmed 2 ]

/-- Capacity 2; `a` and `b` share Monday 2024-01-01 at 09:00, which is full. -/
def fullSlotStore : Store :=
  sampleStore 2
    [ sampleAppointment "a" "ta" "2024-01-01" "09:00" Status.confirmed 1,
      sampleAppointment "b" "tb" "2024-01-01" "09:00" Status.rescheduled 2,
      sampleAppointment "c" "tc" "2024-01-02" "10:00" Status.confirmed 3 ]

/-! ## Runtime string operations and sorting -/

/-- String operations the server takes from the runtime: `localeCompare a b`
is `a.localeCompare(b)` (negative, zero or positive) and `toLowerCase s` is
`s.toLowerCase()`. -/
structure Locale where
  localeCompare : String → String → Int
  toLowerCase : String → String

/-- The call `array.sort(compare)`: a stable sort, an element staying before
the later elements it does not compare greater than. -/
def sortBy {α : Type} (compare : α → α → Int) (items : List α) : List α :=
  items.insertionSort (fun a b => compare a b ≤ 0)

/-- The call `array.findIndex(p)`, with `none` for `-1`. -/
def findIndex {α : Type} (p : α → Bool) : List α → Option Nat
  | [] => none
  | item :: rest => if p item then some 0 else (findIndex p rest).map (fun i => i + 1)

/-! ## Queue, search and token-gated read -/

/-- The comparator of `getQueue`: date, then time slot, then creation time. -/
def compareQueue (locale : Locale) (a b : Appointment) : Int :=
  let dateCompare := locale.localeCompare a.date b.date
  if dateCompare ≠ 0 then dateCompare
  else
    let timeCompare := locale.localeCompare a.timeSlot b.timeSlot
    if timeCompare ≠ 0 then timeCompare
    else (a.createdAt : Int) - (b.createdAt : Int)

/-- The function `getQueue`. -/
def getQueue (locale : Locale) (appointments : List Appointment) : List Appointment :=
  sortBy (compareQueue locale)
    (appointments.filter (fun item => item.status != Status.canceled))

/-- Answers of `GET /api/appointments/search`: an error message, the body
`{ appointment: null }`, or an appointment with its queue position, `none`
standing for the string "Not in queue". -/
inductive SearchResponse where
  | error (message : String)
  | noMatch
  | found (appointment : Appointment) (queuePosition : Option Nat)
deriving DecidableEq, Repr

/-- The handler of `GET /api/appointments/search`. -/
def searchAppointment (locale : Locale) (store : Store) (email : String) : SearchResponse :=
  if email = "" then .error "Email is required."
  else
    let found :=
      sortBy (fun a b : Appointment => (b.createdAt : Int) - (a.createdAt : Int))
        (store.appointments.filter
          (fun item => locale.toLowerCase item.email == locale.toLowerCase email))
    match found with
    | [] => .noMatch
    | appointment :: _ =>
      let queue := getQueue locale store.appointments
      match findIndex (fun item => item.id == appointment.id) queue with
      | none => .found appointment none
      | some position => .found appointment (some (position + 1))

/-- The handler of `GET /api/appointments/:id`; it never writes the store. -/
def getAppointment (store : Store) (id token : String) : Except String Appointment :=
  if token = "" then .error "Token is required."
  else
    match store.appointments.find? (fun item => item.id == id) with
    | none => .error "Invalid token."
    | some appointment =>
      if appointment.manageToken ≠ token then .error "Invalid token."
      else .ok appointment

/-! ## Blocked dates -/

/-- The handler of `POST /api/blocked-dates`: the error message, or the store
it writes. -/
def addBlockedDate (store : Store) (date : String) : Except String Store :=
  if date = "" then .error "Date is required."
  else
    .ok { store with
      blockedDates :=
        if store.blockedDates.contains date then store.blockedDates
        else store.blockedDates ++ [date] }

/-- The handler of `DELETE /api/blocked-dates/:date`: the store it writes. -/
def removeBlockedDate (store : Store) (date : String) : Store :=
  { store with blockedDates := store.blockedDates.filter (fun item => item != date) }

/-! ## Upload middleware and the create endpoint -/

/-- The file part of a multipart create request as the upload middleware
sees it. -/
structure Upload where
  originalname : String
  mimetype : String
  size : Nat
deriving DecidableEq, Repr

/-- The `fileFilter` callback: `none` when the file is let through, the error
message otherwise. -/
def fileFilter (file : Upload) : Option String :=
  if ["application/pdf", "image/jpeg", "image/png"].contains file.mimetype then none
  else some "Invalid file type. Upload PDF or JPG/PNG image."

/-- What the upload library, which is not part of the repository, makes of
the body of a create request, the answer of `fileFilter` apart:
`refused message` when the library raises an error of its own (a file over
the `limits.fileSize` of 5 MiB, a file part under another field name, a
second file part, a malformed body), `message` being its `err.message`;
`noFile` when the body carries no file part, so that `req.file` stays
undefined; `file upload storedName` when one file part named `documentFile`
is handed to `fileFilter` and, once let through, is stored whole under the
name `storedName` drawn by the `filename` callback. -/
inductive Multipart where
  | refused (message : String)
  | noFile
  | file (upload : Upload) (storedName : String)
deriving DecidableEq, Repr

/-- The message of the final error handler: `err.message || "Upload failed."`. -/
def errorHandler (message : String) : String :=
  if message = "" then "Upload failed." else message

/-- The text fields of a create request. -/
structure CreateFields where
  firstName : String
  lastName : String
  email : String
  documentType : String
  documentNumber : String
  date : String
  timeSlot : String
deriving DecidableEq, Repr

/-- The route `POST /api/appointments`: the middleware
`upload.single("documentFile")` with the `fileFilter` of the repository, whose
errors go to the final error handler, then the handler on the request handed
over. -/
def postAppointment (env : Env) (store : Store) (fields : CreateFields)
    (body : Multipart) (fresh : Fresh) : Except String (Store × Appointment) :=
  match body with
  | .refused message => .error (errorHandler message)
  | .noFile =>
    createAppointment env store
      { firstName := fields.firstName, lastName := fields.lastName, email := fields.email,
        documentType := fields.documentType, documentNumber := fields.documentNumber,
        date := fields.date, timeSlot := fields.timeSlot, file := none }
      fresh
  | .file upload storedName =>
    match fileFilter upload with
    | some message => .error (errorHandler message)
    | none =>
      createAppointment env store
        { firstName := fields.firstName, lastName := fields.lastName, email := fields.email,
          documentType := fields.documentType, documentNumber := fields.documentNumber,
          date := fields.date, timeSlot := fields.timeSlot,
          file := some
            { originalName := upload.originalname, fileName := storedName,
              mimeType := upload.mimetype, size := upload.size } }
        fresh

/-! ## Rate quoter -/

/-- The constant `DEFAULT_CURRENCIES`. -/
def DEFAULT_CURRENCIES : List String :=
  ["USD", "EUR", "GBP", "AED", "TRY", "CAD", "AUD", "CHF", "CNY", "JPY", "KRW", "SAR"]

/-- The constant `CURRENCY_NAMES`. -/
def CURRENCY_NAMES : List (String × String) :=
  [ ("USD", "US Dollar"), ("EUR", "Euro"), ("GBP", "British Pound"), ("AED", "UAE Dirham"),
    ("TRY", "Turkish Lira"), ("CAD", "Canadian Dollar"), ("AUD", "Australian Dollar"),
    ("CHF", "Swiss Franc"), ("CNY", "Chinese Yuan"), ("JPY", "Japanese Yen"),
    ("KRW", "South Korean Won"), ("SAR", "Saudi Riyal"), ("NOK", "Norwegian Krone"),
    ("SEK", "Swedish Krona"), ("DKK", "Danish Krone"), ("QAR", "Qatari Riyal"),
    ("OMR", "Omani Rial"), ("KWD", "Kuwaiti Dinar"), ("INR", "Indian Rupee"),
    ("PKR", "Pakistani Rupee"), ("RUB", "Russian Ruble") ]

/-- One computed quote. Prices are exact rationals here; the server computes
them in double precision. -/
structure RateQuote where
  code : String
  name : String
  buy : ℚ
  sell : ℚ
deriving DecidableEq, Repr

/-- The payload answered by `GET /api/rates`. -/
structure RatesPayload where
  updatedAt : Nat
  rates : List RateQuote
deriving DecidableEq, Repr

/-- The module variable `rateCache`. -/
structure RateCache where
  data : Option RatesPayload
  updatedAt : Option Nat
  expiresAt : Nat
deriving DecidableEq, Repr

/-- The parsed upstream body: `rates` is the key/value list of `data.rates`
(`none` when the field is missing), `time_last_update_unix` the field of that
name. -/
structure UpstreamResponse where
  rates : Option (List (String × ℚ))
  time_last_update_unix : Option Nat
deriving DecidableEq, Repr

/-- Property read `rates[code]`. -/
def rateOf (rates : List (String × ℚ)) (code : String) : Option ℚ :=
  match rates with
  | [] => none
  | (k, v) :: rest => if k = code then some v else rateOf rest code

/-- Truthiness of a rate that may be missing: a number other than zero. -/
def truthyRate (rate : Option ℚ) : Bool :=
  match rate with
  | none => false
  | some r => decide (r ≠ 0)

/-- The expression `CURRENCY_NAMES[code] || code`. -/
def currencyName (code : String) : String :=
  match CURRENCY_NAMES.lookup code with
  | some name => if name = "" then code else name
  | none => code

/-- The quote built for one code by the `map` callback of `fetchRates`. -/
def quoteFor (rates : List (String × ℚ)) (irrRate : ℚ) (store : Store) (code : String) :
    RateQuote :=
  let mid := irrRate / (rateOf rates code).getD 0
  { code := code,
    name := currencyName code,
    buy := mid * (1 - store.settings.buyMargin),
    sell := mid * (1 + store.settings.sellMargin) }

/-- The part of `fetchRates` that runs on a cache miss: reads the upstream
body and the store, and either answers an empty list (no usable IRR rate, the
cache is left alone) or computes the quotes and replaces the cache. `later` is
the reading of `Date.now()` used where the body needs the clock again. -/
def refreshRates (locale : Locale) (cache : RateCache) (now : Nat)
    (upstream : UpstreamResponse) (store : Store) (later : Nat) (showAll : Bool) :
    RatesPayload × RateCache :=
  let rates := upstream.rates.getD []
  match rateOf rates "IRR" with
  | none => ({ updatedAt := later, rates := [] }, cache)
  | some irrRate =>
    if irrRate = 0 then ({ updatedAt := later, rates := [] }, cache)
    else
      let codes := if showAll then rates.map (fun entry => entry.1) else DEFAULT_CURRENCIES
      let computed :=
        sortBy (fun a b : RateQuote => locale.localeCompare a.code b.code)
          ((codes.filter (fun code => code != "IRR" && truthyRate (rateOf rates code))).map
            (quoteFor rates irrRate store))
      let payload : RatesPayload :=
        { updatedAt :=
            match upstream.time_last_update_unix with
            | none => later
            | some seconds => if seconds = 0 then later else seconds * 1000,
          rates := computed }
      (payload,
        { data := some payload, updatedAt := some payload.updatedAt,
          expiresAt := now + 1000 * 60 * 5 })

/-- The function `fetchRates` with the cache as explicit state: the payload it
returns and the cache it leaves. `now` is the reading of `Date.now()` at entry. -/
def fetchRates (locale : Locale) (cache : RateCache) (now : Nat)
    (upstream : UpstreamResponse) (store : Store) (later : Nat) (showAll : Bool) :
    RatesPayload × RateCache :=
  match cache.data with
  | some data =>
    if now < cache.expiresAt then (data, cache)
    else refreshRates locale cache now upstream store later showAll
  | none => refreshRates locale cache now upstream store later showAll

/-! ## Reference notions for the queue and the search -/

/-- The order on queue keys: earlier date, or same date and earlier slot, or
same date and slot and creation time not later. Strings are compared
character by character (the order `<` on strings). -/
def queueLe (x y : Appointment) : Prop :=
  x.date.toList < y.date.toList ∨
    (x.date = y.date ∧
      (x.timeSlot.toList < y.timeSlot.toList ∨
        (x.timeSlot = y.timeSlot ∧ x.createdAt ≤ y.createdAt)))

instance (x y : Appointment) : Decidable (queueLe x y) := by
  unfold queueLe
  infer_instance

/-- On the given strings `localeCompare` orders as `<` does: negative exactly
on a smaller left argument and zero exactly on equal arguments. Dates
`YYYY-MM-DD` and slots `HH:MM` are such strings. -/
def AgreesOn (locale : Locale) (strings : List String) : Prop :=
  ∀ a ∈ strings, ∀ b ∈ strings,
    (locale.localeCompare a b < 0 ↔ a.toList < b.toList) ∧
      (locale.localeCompare a b = 0 ↔ a = b)

instance (locale : Locale) (strings : List String) : Decidable (AgreesOn locale strings) := by
  unfold AgreesOn
  infer_instance

/-- The email of an appointment equals the query email ignoring letter case. -/
def emailMatches (locale : Locale) (email : String) (item : Appointment) : Bool :=
  locale.toLowerCase item.email == locale.toLowerCase email

/-- The identity of an appointment: its id and its management token. -/
def identityOf (item : Appointment) : String × String :=
  (item.id, item.manageToken)

/-! ## More sample data -/

/-- A runtime locale on plain ASCII data: comparison by code points (the
order `localeCompare` gives on dates `YYYY-MM-DD`, slots `HH:MM` and
upper-case currency codes) and lower-casing of the letters `A` to `Z`. -/
def asciiLocale : Locale :=
  { localeCompare := fun a b => if a.toList < b.toList then -1 else if a = b then 0 else 1,
    toLowerCase := fun s => String.mk (s.toList.map Char.toLower) }

/-- Capacity 0; the confirmed `a` stands on Monday 2024-01-01 at 09:00 and the
Tuesday 10:00 slot is empty. -/
def zeroCapacityStore : Store :=
  sampleStore 0 [ sampleAppointment "a" "ta" "2024-01-01" "09:00" Status.confirmed 1 ]

/-- Text fields of a complete create request for the given date and slot. -/
def sampleFields (date timeSlot : String) : CreateFields :=
  { firstName := "Omid", lastName := "Karimi", email := "omid@example.com",
    documentType := "passport", documentNumber := "P456", date := date, timeSlot := timeSlot }

/-- Four appointments out of queue order: `c` is canceled, `a` and `d` share
date, slot and creation time, `b` is on an earlier slot of the same day. -/
def queueStore : Store :=
  sampleStore 6
    [ sampleAppointment "a" "ta" "2024-01-02" "10:00" Status.confirmed 5,
      sampleAppointment "c" "tc" "2024-01-01" "09:00" Status.canceled 1,
      sampleAppointment "d" "td" "2024-01-02" "10:00" Status.rescheduled 5,
      sampleAppointment "b" "tb" "2024-01-02" "09:00" Status.confirmed 7 ]

/-- An upstream body quoting the dollar at 100 rials, the euro at 110 rials
and a currency without a rate. -/
def sampleUpstream : UpstreamResponse :=
  { rates := some [("USD", 1), ("EUR", 10 / 11), ("IRR", 100), ("XXX", 0)],
    time_last_update_unix := some 1700000000 }

/-- The cache before any call. -/
def emptyCache : RateCache :=
  { data := none, updatedAt := none, expiresAt := 0 }

/-! ## Lemmas on the count table, the in-place update and the handlers -/

theorem getKey_setKey (counts : List (String × Nat)) (key : String) (value : Nat) (s : String) :
    getKey (setKey counts key value) s = if key = s then some value else getKey counts s := by
  induction counts with
  | nil => simp [setKey, getKey]
  | cons head rest ih =>
    obtain ⟨k, v⟩ := head
    by_cases hk : k = key
    · subst hk
      by_cases hs : k = s <;> simp [setKey, getKey, hs]
    · by_cases hs : k = s
      · subst hs
        have : ¬ key = k := fun h => hk h.symm
        simp [setKey, getKey, hk, this]
      · simp [setKey, getKey, hk, hs, ih]

/-- Tally step of `getAvailability`. -/
theorem getKey_foldl_tally (l : List Appointment) (acc : List (String × Nat)) (s : String) :
    getKey (l.foldl (fun counts item =>
        setKey counts item.timeSlot (orZero (getKey counts item.timeSlot) + 1)) acc) s =
      if l.countP (fun item => item.timeSlot == s) = 0 then getKey acc s
      else some (orZero (getKey acc s) + l.countP (fun item => item.timeSlot == s)) := by
  induction l generalizing acc with
  | nil => simp
  | cons item rest ih =>
    rw [List.foldl_cons, ih, getKey_setKey, List.countP_cons]
    by_cases hs : item.timeSlot = s
    · subst hs
      by_cases hr : List.countP (fun x => x.timeSlot == item.timeSlot) rest = 0
      · simp [hr, orZero]
      · simp [hr, orZero]; omega
    · simp [hs]

theorem countP_filter_slot (l : List Appointment) (date s : String) :
    (l.filter (fun item => item.date == date && item.status != Status.canceled)).countP
        (fun item => item.timeSlot == s) =
      l.countP (reserves date s) := by
  unfold reserves
  induction l with
  | nil => simp
  | cons item rest ih =>
    by_cases h1 : item.date = date <;> by_cases h2 : item.status = Status.canceled <;>
      by_cases h3 : item.timeSlot = s <;> simp [List.filter_cons, List.countP_cons, h1, h2, h3, ih]

theorem getKey_reservedCounts (env : Env) (store : Store) (date s : String) :
    getKey (getAvailability env date store).reservedCounts s =
      if reservedCount store date s = 0 then none else some (reservedCount store date s) := by
  unfold getAvailability reservedCount
  simp only
  rw [getKey_foldl_tally, countP_filter_slot]
  simp [getKey, orZero]

theorem reportedCount_eq (env : Env) (store : Store) (date s : String) :
    reportedCount env store date s = reservedCount store date s := by
  unfold reportedCount
  rw [getKey_reservedCounts]
  by_cases h : reservedCount store date s = 0 <;> simp [h, orZero]

theorem countP_updateFound (q : Appointment → Bool) (id : String)
    (f : Appointment → Appointment) (l : List Appointment) (a : Appointment)
    (h : l.find? (fun item => item.id == id) = some a) :
    (updateFound id f l).countP q + (if q a then 1 else 0) =
      l.countP q + (if q (f a) then 1 else 0) := by
  induction l with
  | nil => simp at h
  | cons item rest ih =>
    by_cases hid : (item.id == id) = true
    · have ha : item = a := by simpa [List.find?_cons, hid] using h
      subst ha
      simp only [updateFound, hid, if_true, List.countP_cons]
      omega
    · have hrest : rest.find? (fun item => item.id == id) = some a := by
        simpa [List.find?_cons, hid] using h
      have := ih hrest
      simp only [updateFound, hid, List.countP_cons] at this ⊢
      simp only [Bool.false_eq_true, if_false, List.countP_cons]
      omega

theorem find?_updateFound (id : String) (f : Appointment → Appointment)
    (l : List Appointment) (a : Appointment)
    (h : l.find? (fun item => item.id == id) = some a) (hf : (f a).id = a.id) :
    (updateFound id f l).find? (fun item => item.id == id) = some (f a) := by
  induction l with
  | nil => simp at h
  | cons item rest ih =>
    by_cases hid : (item.id == id) = true
    · have ha : item = a := by simpa [List.find?_cons, hid] using h
      subst ha
      have : ((f item).id == id) = true := by rw [hf]; exact hid
      simp [updateFound, hid, List.find?_cons, this]
    · have hrest : rest.find? (fun item => item.id == id) = some a := by
        simpa [List.find?_cons, hid] using h
      simp [updateFound, hid, List.find?_cons, ih hrest]

theorem currentCount_eq (env : Env) (store : Store) (date s : String) :
    orZero (getKey (getAvailability env date store).reservedCounts s) =
      reservedCount store date s := reportedCount_eq env store date s

theorem geCapacity_reservedCounts (env : Env) (store : Store) (date s : String) (cap : Int) :
    geCapacity (getKey (getAvailability env date store).reservedCounts s) cap = true ↔
      1 ≤ reservedCount store date s ∧ cap ≤ (reservedCount store date s : Int) := by
  rw [getKey_reservedCounts]
  by_cases h : reservedCount store date s = 0
  · simp [h, geCapacity]
  · simp [h, geCapacity]
    omega

/-- What a successful create has checked and written. -/
theorem createAppointment_ok_inv (env : Env) (store written : Store) (req : CreateRequest)
    (fresh : Fresh) (a : Appointment)
    (h : createAppointment env store req fresh = .ok (written, a)) :
    req.wellFormed ∧ isClosedDate env req.date store.blockedDates = false ∧
      (reservedCount store req.date req.timeSlot : Int) < store.settings.slotCapacity ∧
      written = { store with appointments := store.appointments ++ [a] } ∧
      a.status = Status.confirmed ∧ a.date = req.date ∧ a.timeSlot = req.timeSlot ∧
      a.id = fresh.id ∧ a.manageToken = fresh.manageToken := by
  unfold createAppointment at h
  split at h
  · simp at h
  · rename_i hreq
    split at h
    · simp at h
    · rename_i file hfile
      split at h
      · simp at h
      · rename_i hdate
        split at h
        · simp at h
        · rename_i hslot
          split at h
          · simp at h
          · rename_i hclosed
            simp only [currentCount_eq] at h
            split at h
            · simp at h
            · rename_i hcap
              simp only [Except.ok.injEq, Prod.mk.injEq] at h
              obtain ⟨hw, ha⟩ := h
              subst ha
              simp only [not_or] at hreq
              simp only [Bool.not_eq_true, Bool.not_eq_false', Bool.not_eq_true'] at hdate hslot hclosed
              refine ⟨?_, hclosed, by omega, hw.symm, rfl, rfl, rfl, rfl, rfl⟩
              unfold CreateRequest.wellFormed
              simp [hfile, hdate, hslot]
              tauto

/-- A well-formed request on an open date with room left is served. -/
theorem createAppointment_ok (env : Env) (store : Store) (req : CreateRequest) (fresh : Fresh)
    (hreq : req.wellFormed) (hopen : isClosedDate env req.date store.blockedDates = false)
    (hroom : (reservedCount store req.date req.timeSlot : Int) < store.settings.slotCapacity) :
    ∃ a, createAppointment env store req fresh =
      .ok ({ store with appointments := store.appointments ++ [a] }, a) := by
  obtain ⟨h1, h2, h3, h4, h5, h6, h7, h8, h9, h10⟩ := hreq
  obtain ⟨file, hfile⟩ := Option.isSome_iff_exists.mp h8
  unfold createAppointment
  simp only [currentCount_eq]
  simp only [h1, h2, h3, h4, h5, h6, h7, hfile, h9, h10, hopen, or_self, if_false,
    Bool.not_true, Bool.false_eq_true]
  rw [if_neg (not_le.mpr hroom)]
  exact ⟨_, rfl⟩

/-- What a successful self-service reschedule has checked and written. -/
theorem rescheduleAppointment_ok_inv (env : Env) (store written : Store)
    (id token date timeSlot : String) (now : Nat) (a : Appointment)
    (h : rescheduleAppointment env store id token date timeSlot now = .ok (written, a)) :
    ∃ found, store.appointments.find? (fun item => item.id == id) = some found ∧
      found.manageToken = token ∧ token ≠ "" ∧ dateFormat date = true ∧
      validSlot timeSlot = true ∧ isClosedDate env date store.blockedDates = false ∧
      ¬ (1 ≤ reservedCount store date timeSlot ∧
          store.settings.slotCapacity ≤ (reservedCount store date timeSlot : Int)) ∧
      written = { store with
        appointments := updateFound id (applyReschedule date timeSlot now) store.appointments } ∧
      a = applyReschedule date timeSlot now found := by
  unfold rescheduleAppointment at h
  split at h
  · simp at h
  · rename_i hreq
    split at h
    · simp at h
    · rename_i hdate
      split at h
      · simp at h
      · rename_i hslot
        split at h
        · simp at h
        · rename_i found hfound
          split at h
          · simp at h
          · rename_i htoken
            split at h
            · simp at h
            · rename_i hclosed
              simp only at h
              split at h
              · simp at h
              · rename_i hfull
                simp only [Except.ok.injEq, Prod.mk.injEq] at h
                rw [geCapacity_reservedCounts] at hfull
                simp only [not_or] at hreq
                simp only [Bool.not_eq_true, Bool.not_eq_false', Bool.not_eq_true',
                  ne_eq, not_not, Bool.not_eq_false] at hdate hslot hclosed htoken
                exact ⟨found, hfound, htoken, hreq.1, hdate, hslot, hclosed, hfull,
                  h.1.symm, h.2.symm⟩

/-- A reschedule that passes every check is served. -/
theorem rescheduleAppointment_ok (env : Env) (store : Store) (id date timeSlot : String)
    (now : Nat) (found : Appointment)
    (hfound : store.appointments.find? (fun item => item.id == id) = some found)
    (htoken : found.manageToken ≠ "") (hdate : dateFormat date = true)
    (hslot : validSlot timeSlot = true)
    (hopen : isClosedDate env date store.blockedDates = false)
    (hroom : ¬ (1 ≤ reservedCount store date timeSlot ∧
      store.settings.slotCapacity ≤ (reservedCount store date timeSlot : Int))) :
    rescheduleAppointment env store id found.manageToken date timeSlot now =
      .ok ({ store with
          appointments :=
            updateFound id (applyReschedule date timeSlot now) store.appointments },
        applyReschedule date timeSlot now found) := by
  have hd : date ≠ "" := by
    intro h; subst h; simp [dateFormat] at hdate
  have hs : timeSlot ≠ "" := by
    intro h; subst h; revert hslot; decide
  have hfull : ¬ geCapacity (getKey (getAvailability env date store).reservedCounts timeSlot)
      store.settings.slotCapacity = true := by
    rw [geCapacity_reservedCounts]; exact hroom
  unfold rescheduleAppointment
  simp only [htoken, hd, hs, or_self, if_false, hdate, hslot, Bool.not_true,
    Bool.false_eq_true, hfound, ne_eq, not_true_eq_false, hopen, hfull]

/-- A reschedule into a slot that is counted full is refused. -/
theorem rescheduleAppointment_full (env : Env) (store : Store) (id date timeSlot : String)
    (now : Nat) (found : Appointment)
    (hfound : store.appointments.find? (fun item => item.id == id) = some found)
    (htoken : found.manageToken ≠ "") (hdate : dateFormat date = true)
    (hslot : validSlot timeSlot = true)
    (hopen : isClosedDate env date store.blockedDates = false)
    (hfull : 1 ≤ reservedCount store date timeSlot ∧
      store.settings.slotCapacity ≤ (reservedCount store date timeSlot : Int)) :
    rescheduleAppointment env store id found.manageToken date timeSlot now =
      .error "Selected time slot is full." := by
  have hd : date ≠ "" := by
    intro h; subst h; simp [dateFormat] at hdate
  have hs : timeSlot ≠ "" := by
    intro h; subst h; revert hslot; decide
  have hge : geCapacity (getKey (getAvailability env date store).reservedCounts timeSlot)
      store.settings.slotCapacity = true := by
    rw [geCapacity_reservedCounts]; exact hfull
  unfold rescheduleAppointment
  simp only [htoken, hd, hs, or_self, if_false, hdate, hslot, Bool.not_true,
    Bool.false_eq_true, hfound, ne_eq, not_true_eq_false, hopen, hge, if_true]

/-- Cancel with the id and token of a stored appointment is always served. -/
theorem cancelAppointment_ok (store : Store) (id : String) (now : Nat) (found : Appointment)
    (hfound : store.appointments.find? (fun item => item.id == id) = some found)
    (htoken : found.manageToken ≠ "") :
    cancelAppointment store id found.manageToken now =
      .ok ({ store with appointments := updateFound id (applyCancel now) store.appointments },
        applyCancel now found) := by
  unfold cancelAppointment
  simp only [htoken, if_false, hfound, ne_eq, not_true_eq_false]

/-- What a successful cancel has checked and written. -/
theorem cancelAppointment_ok_inv (store written : Store) (id token : String) (now : Nat)
    (a : Appointment) (h : cancelAppointment store id token now = .ok (written, a)) :
    ∃ found, store.appointments.find? (fun item => item.id == id) = some found ∧
      found.manageToken = token ∧ token ≠ "" ∧
      written = { store with
        appointments := updateFound id (applyCancel now) store.appointments } ∧
      a = applyCancel now found := by
  unfold cancelAppointment at h
  split at h
  · simp at h
  · rename_i hreq
    split at h
    · simp at h
    · rename_i found hfound
      split at h
      · simp at h
      · rename_i htoken
        simp only [Except.ok.injEq, Prod.mk.injEq] at h
        simp only [ne_eq, not_not] at htoken
        exact ⟨found, hfound, htoken, hreq, h.1.symm, h.2.symm⟩

/-- A chain of five guards that ends in a success has passed each of them. -/
theorem ok_of_guards {ε α : Type} {P1 P2 P3 P4 P5 : Prop} [Decidable P1] [Decidable P2]
    [Decidable P3] [Decidable P4] [Decidable P5] {e1 e2 e3 e4 e5 : ε} {x y : α}
    (h : (if P1 then Except.error e1 else if P2 then Except.error e2
      else if P3 then Except.error e3 else if P4 then Except.error e4
      else if P5 then Except.error e5 else Except.ok x) = Except.ok y) :
    ¬ P1 ∧ ¬ P2 ∧ ¬ P3 ∧ ¬ P4 ∧ ¬ P5 ∧ x = y := by
  split_ifs at h
  simp_all

/-- What a successful admin edit has checked and written. -/
theorem adminEditAppointment_ok_inv (env : Env) (store written : Store)
    (id status date timeSlot : String) (now : Nat) (a : Appointment)
    (h : adminEditAppointment env store id status date timeSlot now = .ok (written, a)) :
    ∃ found, store.appointments.find? (fun item => item.id == id) = some found ∧
      (status ≠ "" → statusOfString status ≠ none) ∧
      ((date ≠ "" ∨ timeSlot ≠ "") →
        ¬ store.settings.slotCapacity ≤
          (if (found.date == (applyAdminEdit status date timeSlot now found).date &&
              found.timeSlot == (applyAdminEdit status date timeSlot now found).timeSlot) = true
            then (reservedCount store (applyAdminEdit status date timeSlot now found).date
                (applyAdminEdit status date timeSlot now found).timeSlot : Int) - 1
            else (reservedCount store (applyAdminEdit status date timeSlot now found).date
                (applyAdminEdit status date timeSlot now found).timeSlot : Int))) ∧
      written = { store with
        appointments :=
          updateFound id (applyAdminEdit status date timeSlot now) store.appointments } ∧
      a = applyAdminEdit status date timeSlot now found := by
  unfold adminEditAppointment at h
  cases hfind : store.appointments.find? (fun item => item.id == id) with
  | none => rw [hfind] at h; simp at h
  | some found =>
    rw [hfind] at h
    obtain ⟨-, -, -, hfull, hstatus, hres⟩ := ok_of_guards h
    simp only [Prod.mk.injEq] at hres
    refine ⟨found, rfl, ?_, ?_, hres.1.symm, hres.2.symm⟩
    · intro hs hn
      exact hstatus ⟨hs, hn⟩
    · intro hd hle
      apply hfull
      refine ⟨hd, ?_⟩
      rw [currentCount_eq]
      exact hle

theorem reservedCount_append (store : Store) (a : Appointment) (date s : String) :
    reservedCount { store with appointments := store.appointments ++ [a] } date s =
      reservedCount store date s + (if reserves date s a = true then 1 else 0) := by
  simp [reservedCount, List.countP_append, List.countP_cons]

theorem reserves_iff (date s : String) (a : Appointment) :
    reserves date s a = true ↔ a.date = date ∧ a.timeSlot = s ∧ a.status ≠ Status.canceled := by
  simp [reserves, and_assoc]

theorem reservedCount_updateFound (store : Store) (id : String) (f : Appointment → Appointment)
    (found : Appointment) (date s : String)
    (hfound : store.appointments.find? (fun item => item.id == id) = some found) :
    reservedCount { store with appointments := updateFound id f store.appointments } date s +
        (if reserves date s found = true then 1 else 0) =
      reservedCount store date s + (if reserves date s (f found) = true then 1 else 0) :=
  countP_updateFound (reserves date s) id f store.appointments found hfound

/-- Claim C5: The `closed` flag of `getAvailability` is `true` exactly when the date
is an element of `store.blockedDates` or its weekday index is in the configured
closed-weekday list; neither the slot capacity nor the appointment list enters. -/
theorem getAvailability_closed_iff (env : Env) (store : Store) (date : String) :
    (getAvailability env date store).closed = true ↔
      date ∈ store.blockedDates ∨
        ∃ day, env.getDay date = some day ∧ (day : Int) ∈ closedWeekdays env := by
  show isClosedDate env date store.blockedDates = true ↔ _
  unfold isClosedDate
  by_cases hb : date ∈ store.blockedDates
  · simp [hb]
  · cases hday : env.getDay date with
    | none => simp [hb]
    | some day => simp [hb]

/-- Claim C6: For every store, date and slot value, the entry of `reservedCounts`
(read as 0 when the key is absent) equals the number of appointments with that
date and slot whose status is not canceled; a key is present only when that
number is at least 1, and then holds it; the reported `slotCapacity` is the one
of the settings. -/
theorem getAvailability_counts_reference (env : Env) (store : Store) (date s : String) :
    orZero (getKey (getAvailability env date store).reservedCounts s) =
        (store.appointments.filter (fun item =>
          decide (item.date = date ∧ item.timeSlot = s ∧ item.status ≠ Status.canceled))).length ∧
      (∀ n, getKey (getAvailability env date store).reservedCounts s = some n →
        1 ≤ n ∧ n = reservedCount store date s) ∧
      (getAvailability env date store).slotCapacity = store.settings.slotCapacity := by
  refine ⟨?_, ?_, rfl⟩
  · rw [currentCount_eq, reservedCount, List.countP_eq_length_filter]
    congr 2
    funext item
    rw [Bool.eq_iff_iff, reserves_iff]
    simp
  · intro n hn
    rw [getKey_reservedCounts] at hn
    by_cases h : reservedCount store date s = 0
    · simp [h] at hn
    · simp only [h, if_false, Option.some.injEq] at hn
      omega

/-- Claim C3: A well-formed create request for an open date whose slot already
holds at least `slotCapacity` non-canceled appointments is answered with
"Selected time slot is full." and the store is left as it was. -/
theorem createAppointment_full_rejected (env : Env) (store : Store) (req : CreateRequest)
    (fresh : Fresh) (hreq : req.wellFormed)
    (hopen : isClosedDate env req.date store.blockedDates = false)
    (hfull : store.settings.slotCapacity ≤ (reservedCount store req.date req.timeSlot : Int)) :
    createAppointment env store req fresh = .error "Selected time slot is full." ∧
      storeAfter store (createAppointment env store req fresh) = store := by
  suffices h : createAppointment env store req fresh = .error "Selected time slot is full." by
    rw [h]
    exact ⟨rfl, rfl⟩
  obtain ⟨h1, h2, h3, h4, h5, h6, h7, h8, h9, h10⟩ := hreq
  obtain ⟨file, hfile⟩ := Option.isSome_iff_exists.mp h8
  unfold createAppointment
  simp only [currentCount_eq]
  simp only [h1, h2, h3, h4, h5, h6, h7, hfile, h9, h10, hopen, or_self, if_false,
    Bool.not_true, Bool.false_eq_true]
  rw [if_pos hfull]

theorem getKey_eq_of_reservedCount_eq (env : Env) (store written : Store) (date s : String)
    (h : reservedCount written date s = reservedCount store date s) :
    getKey (getAvailability env date written).reservedCounts s =
      getKey (getAvailability env date store).reservedCounts s := by
  rw [getKey_reservedCounts, getKey_reservedCounts, h]

/-- Claim C4: Starting from a slot of an open date that holds `k` non-canceled
appointments, `N` consecutive well-formed create requests for that slot with
`k + N ≤ slotCapacity` are all served; afterwards the reserved count of the slot
is `k + N` (the key holds it as soon as it is at least 1) and the entry of
every other (date, slot) pair is as before. -/
theorem createAll_reserved_count (env : Env) (store : Store) (date s : String)
    (reqs : List (CreateRequest × Fresh))
    (hreqs : ∀ r ∈ reqs, r.1.wellFormed ∧ r.1.date = date ∧ r.1.timeSlot = s)
    (hopen : isClosedDate env date store.blockedDates = false)
    (hroom : (reservedCount store date s : Int) + reqs.length ≤ store.settings.slotCapacity) :
    ∃ written, createAll env store reqs = .ok written ∧
      orZero (getKey (getAvailability env date written).reservedCounts s) =
        reservedCount store date s + reqs.length ∧
      (1 ≤ reservedCount store date s + reqs.length →
        getKey (getAvailability env date written).reservedCounts s =
          some (reservedCount store date s + reqs.length)) ∧
      ∀ date' s', (date', s') ≠ (date, s) →
        getKey (getAvailability env date' written).reservedCounts s' =
          getKey (getAvailability env date' store).reservedCounts s' := by
  suffices key : ∃ written, createAll env store reqs = .ok written ∧
      reservedCount written date s = reservedCount store date s + reqs.length ∧
      ∀ date' s', (date', s') ≠ (date, s) →
        reservedCount written date' s' = reservedCount store date' s' by
    obtain ⟨written, hrun, hcount, hother⟩ := key
    refine ⟨written, hrun, ?_, ?_, ?_⟩
    · rw [currentCount_eq, hcount]
    · intro hpos
      rw [getKey_reservedCounts, hcount, if_neg (by omega)]
    · intro date' s' hne
      exact getKey_eq_of_reservedCount_eq env store written date' s' (hother date' s' hne)
  induction reqs generalizing store with
  | nil => exact ⟨store, rfl, by simp, fun _ _ _ => rfl⟩
  | cons head rest ih =>
    obtain ⟨req, fresh⟩ := head
    obtain ⟨hwf, hd, hs⟩ := hreqs (req, fresh) (List.mem_cons_self _ _)
    simp only at hwf hd hs
    subst hd hs
    simp only [List.length_cons, Nat.cast_add, Nat.cast_one] at hroom
    obtain ⟨a, ha⟩ := createAppointment_ok env store req fresh hwf hopen (by omega)
    obtain ⟨-, -, -, -, hstatus, hadate, haslot, -, -⟩ :=
      createAppointment_ok_inv env store _ req fresh a ha
    have hres : ∀ date' s', reserves date' s' a = true ↔
        (date', s') = (req.date, req.timeSlot) := by
      intro date' s'
      rw [reserves_iff, hadate, haslot, hstatus]
      simp [eq_comm]
    have hstep : reservedCount { store with appointments := store.appointments ++ [a] }
        req.date req.timeSlot = reservedCount store req.date req.timeSlot + 1 := by
      rw [reservedCount_append, if_pos ((hres _ _).mpr rfl)]
    obtain ⟨written, hrun, hcount, hother⟩ :=
      ih { store with appointments := store.appointments ++ [a] }
        (fun r hr => hreqs r (List.mem_cons_of_mem _ hr)) hopen (by rw [hstep]; push_cast; omega)
    refine ⟨written, ?_, ?_, ?_⟩
    · simp only [createAll, ha]
      exact hrun
    · rw [hcount, hstep, List.length_cons]
      omega
    · intro date' s' hne
      rw [hother date' s' hne, reservedCount_append,
        if_neg (fun h => hne ((hres date' s').mp h))]
      rfl

theorem reserves_applyCancel (date s : String) (now : Nat) (a : Appointment) :
    reserves date s (applyCancel now a) = false := by
  simp [reserves, applyCancel]

theorem reserves_applyReschedule (date s date' s' : String) (now : Nat) (a : Appointment) :
    reserves date' s' (applyReschedule date s now a) = true ↔ (date', s') = (date, s) := by
  rw [reserves_iff]
  simp only [applyReschedule, Prod.mk.injEq, ne_eq]
  constructor
  · rintro ⟨h1, h2, -⟩
    exact ⟨h1.symm, h2.symm⟩
  · rintro ⟨h1, h2⟩
    exact ⟨h1.symm, h2.symm, by decide⟩

/-- Claim C9: Cancel with the id and token of a stored appointment is served and
returns it with status canceled.  The reserved count of its (date, slot) pair
drops by exactly one when it was not canceled before and every entry stays as
it was when it already was canceled; the entries of all other pairs are
unchanged; a second cancel is served as well and changes no entry. -/
theorem cancelAppointment_effect (env : Env) (store : Store) (id : String) (now : Nat)
    (found : Appointment)
    (hfound : store.appointments.find? (fun item => item.id == id) = some found)
    (htoken : found.manageToken ≠ "") :
    ∃ written canceled,
      cancelAppointment store id found.manageToken now = .ok (written, canceled) ∧
      canceled.status = Status.canceled ∧
      written.appointments.find? (fun item => item.id == id) = some canceled ∧
      (found.status ≠ Status.canceled →
        orZero (getKey (getAvailability env found.date written).reservedCounts found.timeSlot) + 1 =
          orZero (getKey (getAvailability env found.date store).reservedCounts found.timeSlot)) ∧
      (found.status = Status.canceled → ∀ date s,
        getKey (getAvailability env date written).reservedCounts s =
          getKey (getAvailability env date store).reservedCounts s) ∧
      (∀ date s, (date, s) ≠ (found.date, found.timeSlot) →
        getKey (getAvailability env date written).reservedCounts s =
          getKey (getAvailability env date store).reservedCounts s) ∧
      ∀ later, ∃ again same,
        cancelAppointment written id found.manageToken later = .ok (again, same) ∧
        ∀ date s, getKey (getAvailability env date again).reservedCounts s =
          getKey (getAvailability env date written).reservedCounts s := by
  have hcount : ∀ (st : Store) (fd : Appointment) (t : Nat) (date s : String),
      st.appointments.find? (fun item => item.id == id) = some fd →
      reservedCount { st with appointments := updateFound id (applyCancel t) st.appointments }
          date s + (if reserves date s fd = true then 1 else 0) = reservedCount st date s := by
    intro st fd t date s h
    have := reservedCount_updateFound st id (applyCancel t) fd date s h
    rw [reserves_applyCancel] at this
    simpa using this
  have hfound2 : (updateFound id (applyCancel now) store.appointments).find?
      (fun item => item.id == id) = some (applyCancel now found) :=
    find?_updateFound id (applyCancel now) store.appointments found hfound rfl
  refine ⟨_, _, cancelAppointment_ok store id now found hfound htoken, rfl, hfound2,
    ?_, ?_, ?_, ?_⟩
  · intro hst
    rw [currentCount_eq, currentCount_eq]
    have := hcount store found now found.date found.timeSlot hfound
    rw [if_pos ((reserves_iff _ _ _).mpr ⟨rfl, rfl, hst⟩)] at this
    exact this
  · intro hst date s
    apply getKey_eq_of_reservedCount_eq
    have := hcount store found now date s hfound
    rw [if_neg (by rw [reserves_iff]; tauto)] at this
    exact this
  · intro date s hne
    apply getKey_eq_of_reservedCount_eq
    have := hcount store found now date s hfound
    rw [if_neg (by
      rw [reserves_iff]
      rintro ⟨h1, h2, -⟩
      exact hne (by rw [h1, h2]))] at this
    exact this
  · intro later
    have htoken2 : (applyCancel now found).manageToken ≠ "" := htoken
    refine ⟨_, _, cancelAppointment_ok
      { store with appointments := updateFound id (applyCancel now) store.appointments }
      id later (applyCancel now found) hfound2 htoken2, ?_⟩
    intro date s
    apply getKey_eq_of_reservedCount_eq
    have := hcount
      { store with appointments := updateFound id (applyCancel now) store.appointments }
      (applyCancel now found) later date s hfound2
    rw [reserves_applyCancel] at this
    simpa using this

/-- Claim C8: A non-canceled stored appointment, presented with its id and token,
whose own (date, slot) pair is open and holds exactly `slotCapacity - 1`
non-canceled appointments counting itself, is rescheduled onto that same pair:
the request is served, the appointment ends with status rescheduled on the same
pair, and the reserved count of the pair is unchanged. -/
theorem rescheduleAppointment_same_slot (env : Env) (store : Store) (id : String) (now : Nat)
    (found : Appointment)
    (hfound : store.appointments.find? (fun item => item.id == id) = some found)
    (htoken : found.manageToken ≠ "") (hstatus : found.status ≠ Status.canceled)
    (hdate : dateFormat found.date = true) (hslot : validSlot found.timeSlot = true)
    (hopen : isClosedDate env found.date store.blockedDates = false)
    (hcount : (reservedCount store found.date found.timeSlot : Int) =
      store.settings.slotCapacity - 1) :
    ∃ written moved,
      rescheduleAppointment env store id found.manageToken found.date found.timeSlot now =
        .ok (written, moved) ∧
      written.appointments.find? (fun item => item.id == id) = some moved ∧
      moved.status = Status.rescheduled ∧ moved.date = found.date ∧
      moved.timeSlot = found.timeSlot ∧
      orZero (getKey (getAvailability env found.date written).reservedCounts found.timeSlot) =
        orZero (getKey (getAvailability env found.date store).reservedCounts found.timeSlot) := by
  refine ⟨_, _, rescheduleAppointment_ok env store id found.date found.timeSlot now found
    hfound htoken hdate hslot hopen (by omega),
    find?_updateFound id _ store.appointments found hfound rfl, rfl, rfl, rfl, ?_⟩
  rw [currentCount_eq, currentCount_eq]
  have := reservedCount_updateFound store id (applyReschedule found.date found.timeSlot now)
    found found.date found.timeSlot hfound
  rw [if_pos ((reserves_iff _ _ _).mpr ⟨rfl, rfl, hstatus⟩),
    if_pos ((reserves_applyReschedule _ _ _ _ _ _).mpr rfl)] at this
  omega

/-- The capacity bound only has to be checked on the pairs that occur in the
store, once the capacity is known not to be negative. -/
theorem withinCapacity_of_mem (store : Store) (hcap : 0 ≤ store.settings.slotCapacity)
    (h : ∀ a ∈ store.appointments,
      (reservedCount store a.date a.timeSlot : Int) ≤ store.settings.slotCapacity) :
    WithinCapacity store := by
  intro date s
  by_cases hzero : reservedCount store date s = 0
  · rw [hzero]; exact hcap
  · have hpos : 0 < store.appointments.countP (reserves date s) := Nat.pos_of_ne_zero hzero
    obtain ⟨a, hmem, hres⟩ := List.countP_pos_iff.mp hpos
    obtain ⟨hd, hs, -⟩ := (reserves_iff date s a).mp hres
    have := h a hmem
    rw [hd, hs] at this
    exact this

/-- Claim C1: In a store with positive `slotCapacity` where every (date, slot)
pair holds at most `slotCapacity` non-canceled appointments, the store written
by a served create, self-service reschedule or self-service cancel again keeps
every pair within `slotCapacity`. -/
theorem selfService_preserves_capacity (env : Env) (store : Store)
    (hcap : 0 < store.settings.slotCapacity) (hinv : WithinCapacity store) :
    (∀ req fresh written a,
        createAppointment env store req fresh = .ok (written, a) → WithinCapacity written) ∧
      (∀ id token date timeSlot now written a,
        rescheduleAppointment env store id token date timeSlot now = .ok (written, a) →
          WithinCapacity written) ∧
      (∀ id token now written a,
        cancelAppointment store id token now = .ok (written, a) → WithinCapacity written) := by
  refine ⟨?_, ?_, ?_⟩
  · intro req fresh written a h
    obtain ⟨-, -, hroom, hw, hstatus, hadate, haslot, -, -⟩ :=
      createAppointment_ok_inv env store written req fresh a h
    subst hw
    intro date s
    have hold := hinv date s
    show (reservedCount _ date s : Int) ≤ store.settings.slotCapacity
    rw [reservedCount_append]
    by_cases hres : reserves date s a = true
    · obtain ⟨hd, hs, -⟩ := (reserves_iff date s a).mp hres
      rw [hadate] at hd
      rw [haslot] at hs
      subst hd hs
      rw [if_pos hres]
      push_cast
      omega
    · rw [if_neg hres]
      simpa using hold
  · intro id token date timeSlot now written a h
    obtain ⟨found, hfound, -, -, -, -, -, hroom, hw, -⟩ :=
      rescheduleAppointment_ok_inv env store written id token date timeSlot now a h
    subst hw
    intro date' s'
    have hold := hinv date' s'
    show (reservedCount _ date' s' : Int) ≤ store.settings.slotCapacity
    have hupd := reservedCount_updateFound store id (applyReschedule date timeSlot now) found
      date' s' hfound
    by_cases htarget : (date', s') = (date, timeSlot)
    · obtain ⟨hd, hs⟩ := Prod.mk.inj htarget
      subst hd hs
      rw [if_pos ((reserves_applyReschedule _ _ _ _ _ _).mpr rfl)] at hupd
      split_ifs at hupd <;> omega
    · rw [if_neg (fun hres => htarget ((reserves_applyReschedule _ _ _ _ _ _).mp hres))] at hupd
      split_ifs at hupd <;> omega
  · intro id token now written a h
    obtain ⟨found, hfound, -, -, hw, -⟩ := cancelAppointment_ok_inv store written id token now a h
    subst hw
    intro date s
    have hold := hinv date s
    show (reservedCount _ date s : Int) ≤ store.settings.slotCapacity
    have hupd := reservedCount_updateFound store id (applyCancel now) found date s hfound
    rw [reserves_applyCancel] at hupd
    simp only [Bool.false_eq_true, if_false, Nat.add_zero] at hupd
    split_ifs at hupd <;> omega

/-- Claim C2, amended: In a store where every (date, slot) pair holds at most
`slotCapacity` non-canceled appointments, a served admin edit keeps every pair
within `slotCapacity` provided it does not bring a canceled appointment back
on the pair where it already stands: the appointment was not canceled before,
or it is canceled after, or it ends on another (date, slot) pair. -/
theorem adminEdit_preserves_capacity (env : Env) (store written : Store)
    (id status date timeSlot : String) (now : Nat) (found edited : Appointment)
    (hinv : WithinCapacity store)
    (hfound : store.appointments.find? (fun item => item.id == id) = some found)
    (hok : adminEditAppointment env store id status date timeSlot now = .ok (written, edited))
    (hside : found.status ≠ Status.canceled ∨ edited.status = Status.canceled ∨
      (edited.date, edited.timeSlot) ≠ (found.date, found.timeSlot)) :
    WithinCapacity written := by
  obtain ⟨found', hfound', -, hcheck, hw, he⟩ :=
    adminEditAppointment_ok_inv env store written id status date timeSlot now edited hok
  rw [hfound] at hfound'
  obtain rfl : found = found' := Option.some.inj hfound'
  subst hw
  intro date' s'
  have hold := hinv date' s'
  show (reservedCount _ date' s' : Int) ≤ store.settings.slotCapacity
  have hupd := reservedCount_updateFound store id (applyAdminEdit status date timeSlot now) found
    date' s' hfound
  rw [← he] at hupd hcheck
  by_cases hnew : reserves date' s' edited = true
  · obtain ⟨hd, hs, hst⟩ := (reserves_iff date' s' edited).mp hnew
    subst hd hs
    rw [if_pos hnew] at hupd
    by_cases hsame : (edited.date, edited.timeSlot) = (found.date, found.timeSlot)
    · obtain ⟨hd, hs⟩ := Prod.mk.inj hsame
      have hlive : found.status ≠ Status.canceled := by
        rcases hside with h | h | h
        · exact h
        · exact absurd h hst
        · exact absurd hsame h
      rw [if_pos ((reserves_iff _ _ _).mpr ⟨hd.symm, hs.symm, hlive⟩)] at hupd
      omega
    · have hold' : ¬ reserves edited.date edited.timeSlot found = true := by
        rw [reserves_iff]
        rintro ⟨h1, h2, -⟩
        exact hsame (by rw [h1, h2])
      rw [if_neg hold'] at hupd
      have hgiven : date ≠ "" ∨ timeSlot ≠ "" := by
        by_contra hnone
        push_neg at hnone
        apply hsame
        rw [he]
        simp [applyAdminEdit, hnone.1, hnone.2]
      have hroom := hcheck hgiven
      have hnot : ¬ (found.date == edited.date && found.timeSlot == edited.timeSlot) = true := by
        simp only [Bool.and_eq_true, beq_iff_eq, not_and]
        intro h1 h2
        exact hsame (by rw [h1, h2])
      rw [if_neg hnot] at hroom
      omega
  · rw [if_neg hnew] at hupd
    split_ifs at hupd <;> omega

/-- Claim C7, amended: For a stored appointment presented with its id and token
and an open, valid target pair other than its own, in a store with positive
`slotCapacity`: when the target already holds at least `slotCapacity`
non-canceled appointments the reschedule is answered with "Selected time slot
is full." and the store is left as it was; when the target holds exactly
`slotCapacity - 1` the reschedule is served, the appointment moves there and
the target then holds exactly `slotCapacity`. -/
theorem rescheduleAppointment_target_capacity (env : Env) (store : Store)
    (id date timeSlot : String) (now : Nat) (found : Appointment)
    (hcap : 0 < store.settings.slotCapacity)
    (hfound : store.appointments.find? (fun item => item.id == id) = some found)
    (htoken : found.manageToken ≠ "") (hdate : dateFormat date = true)
    (hslot : validSlot timeSlot = true)
    (hopen : isClosedDate env date store.blockedDates = false)
    (hother : (date, timeSlot) ≠ (found.date, found.timeSlot)) :
    (store.settings.slotCapacity ≤ (reservedCount store date timeSlot : Int) →
        rescheduleAppointment env store id found.manageToken date timeSlot now =
            .error "Selected time slot is full." ∧
          storeAfter store
            (rescheduleAppointment env store id found.manageToken date timeSlot now) = store) ∧
      ((reservedCount store date timeSlot : Int) = store.settings.slotCapacity - 1 →
        ∃ written moved,
          rescheduleAppointment env store id found.manageToken date timeSlot now =
            .ok (written, moved) ∧
          written.appointments.find? (fun item => item.id == id) = some moved ∧
          moved.date = date ∧ moved.timeSlot = timeSlot ∧
          (reservedCount written date timeSlot : Int) = store.settings.slotCapacity) := by
  constructor
  · intro hfull
    have h := rescheduleAppointment_full env store id date timeSlot now found hfound htoken
      hdate hslot hopen ⟨by omega, hfull⟩
    rw [h]
    exact ⟨rfl, rfl⟩
  · intro hcount
    refine ⟨_, _, rescheduleAppointment_ok env store id date timeSlot now found hfound htoken
      hdate hslot hopen (by omega),
      find?_updateFound id _ store.appointments found hfound rfl, rfl, rfl, ?_⟩
    have hupd := reservedCount_updateFound store id (applyReschedule date timeSlot now) found
      date timeSlot hfound
    have hnot : ¬ reserves date timeSlot found = true := by
      rw [reserves_iff]
      rintro ⟨h1, h2, -⟩
      exact hother (by rw [h1, h2])
    rw [if_neg hnot, if_pos ((reserves_applyReschedule _ _ _ _ _ _).mpr rfl)] at hupd
    omega

/-- Claim C10, amended: For a stored appointment presented with its id and
token: when it is canceled, a self-service cancel is served and changes only
its `updatedAt` (status, date and slot stay); a self-service reschedule whose
format, closure and capacity checks pass is served whatever the status,
canceled included, and leaves the appointment rescheduled on the requested
pair; every served reschedule returns status rescheduled and every served
cancel returns status canceled. -/
theorem selfService_status_transitions (env : Env) (store : Store) (id : String) (now : Nat)
    (found : Appointment)
    (hfound : store.appointments.find? (fun item => item.id == id) = some found)
    (htoken : found.manageToken ≠ "") :
    (found.status = Status.canceled →
        ∃ written,
          cancelAppointment store id found.manageToken now =
            .ok (written, { found with updatedAt := now }) ∧
          written.appointments.find? (fun item => item.id == id) =
            some { found with updatedAt := now }) ∧
      (∀ date timeSlot, dateFormat date = true → validSlot timeSlot = true →
        isClosedDate env date store.blockedDates = false →
        (reservedCount store date timeSlot : Int) < store.settings.slotCapacity →
        ∃ written moved,
          rescheduleAppointment env store id found.manageToken date timeSlot now =
            .ok (written, moved) ∧
          written.appointments.find? (fun item => item.id == id) = some moved ∧
          moved.status = Status.rescheduled ∧ moved.date = date ∧ moved.timeSlot = timeSlot) ∧
      (∀ token date timeSlot written moved,
        rescheduleAppointment env store id token date timeSlot now = .ok (written, moved) →
          moved.status = Status.rescheduled) ∧
      (∀ token written canceled,
        cancelAppointment store id token now = .ok (written, canceled) →
          canceled.status = Status.canceled) := by
  refine ⟨?_, ?_, ?_, ?_⟩
  · intro hst
    have hsame : applyCancel now found = { found with updatedAt := now } := by
      simp [applyCancel, hst]
    refine ⟨{ store with
      appointments := updateFound id (applyCancel now) store.appointments }, ?_, ?_⟩
    · rw [← hsame]
      exact cancelAppointment_ok store id now found hfound htoken
    · rw [← hsame]
      exact find?_updateFound id (applyCancel now) store.appointments found hfound rfl
  · intro date timeSlot hdate hslot hopen hroom
    exact ⟨_, _, rescheduleAppointment_ok env store id date timeSlot now found hfound htoken
      hdate hslot hopen (by omega),
      find?_updateFound id _ store.appointments found hfound rfl, rfl, rfl, rfl⟩
  · intro token date timeSlot written moved h
    obtain ⟨f, -, -, -, -, -, -, -, -, hm⟩ :=
      rescheduleAppointment_ok_inv env store written id token date timeSlot now moved h
    rw [hm]
    rfl
  · intro token written canceled h
    obtain ⟨f, -, -, -, -, hc⟩ := cancelAppointment_ok_inv store written id token now canceled h
    rw [hc]
    rfl

/-- Instance of C1: the three self-service operations served on `twoSlotStore`
(a create and a reschedule into the slot of `b`, a cancel of `a`) write stores
that stay within capacity 2. -/
theorem selfService_preserves_capacity_witness :
    0 < twoSlotStore.settings.slotCapacity ∧ WithinCapacity twoSlotStore ∧
      WithinCapacity (storeAfter twoSlotStore
        (createAppointment defaultEnv twoSlotStore (sampleRequest "2024-01-02" "10:00")
          (sampleFresh "c" "tc" 9))) ∧
      WithinCapacity (storeAfter twoSlotStore
        (rescheduleAppointment defaultEnv twoSlotStore "a" "ta" "2024-01-02" "10:00" 9)) ∧
      WithinCapacity (storeAfter twoSlotStore (cancelAppointment twoSlotStore "a" "ta" 9)) :=
  have hinv : WithinCapacity twoSlotStore :=
    withinCapacity_of_mem twoSlotStore (by decide) (by decide)
  have h := selfService_preserves_capacity defaultEnv twoSlotStore (by decide) hinv
  ⟨by decide, hinv,
    h.1 (sampleRequest "2024-01-02" "10:00") (sampleFresh "c" "tc" 9) _ _ rfl,
    h.2.1 "a" "ta" "2024-01-02" "10:00" 9 _ _ rfl,
    h.2.2 "a" "ta" 9 _ _ rfl⟩

/-- Counterexample to C2: in `reactivationStore` (capacity 1, the slot holds one
confirmed appointment, so every pair is within capacity) the admin edit that
sets the canceled appointment `a` back to confirmed is served, and the written
store holds two non-canceled appointments on that slot. -/
theorem adminEdit_reactivation_exceeds_capacity :
    0 < reactivationStore.settings.slotCapacity ∧ WithinCapacity reactivationStore ∧
      adminEditAppointment defaultEnv reactivationStore "a" "confirmed" "" "" 7 =
        .ok (sampleStore 1
            [ { sampleAppointment "a" "ta" "2024-01-01" "09:00" Status.confirmed 1 with
                updatedAt := 7 },
              sampleAppointment "b" "tb" "2024-01-01" "09:00" Status.confirmed 2 ],
          { sampleAppointment "a" "ta" "2024-01-01" "09:00" Status.confirmed 1 with
            updatedAt := 7 }) ∧
      reservedCount (sampleStore 1
          [ { sampleAppointment "a" "ta" "2024-01-01" "09:00" Status.confirmed 1 with
              updatedAt := 7 },
            sampleAppointment "b" "tb" "2024-01-01" "09:00" Status.confirmed 2 ])
        "2024-01-01" "09:00" = 2 ∧
      ¬ WithinCapacity (sampleStore 1
          [ { sampleAppointment "a" "ta" "2024-01-01" "09:00" Status.confirmed 1 with
              updatedAt := 7 },
            sampleAppointment "b" "tb" "2024-01-01" "09:00" Status.confirmed 2 ]) :=
  ⟨by decide, withinCapacity_of_mem reactivationStore (by decide) (by decide), rfl, by decide,
    fun h => absurd (h "2024-01-01" "09:00") (by decide)⟩

/-- Instance of amended C2: the admin edit that moves the confirmed `a` of
`twoSlotStore` into the slot of `b` is served and stays within capacity 2. -/
theorem adminEdit_preserves_capacity_witness :
    WithinCapacity twoSlotStore ∧
      WithinCapacity (storeAfter twoSlotStore
        (adminEditAppointment defaultEnv twoSlotStore "a" "" "2024-01-02" "10:00" 7)) :=
  have hinv : WithinCapacity twoSlotStore :=
    withinCapacity_of_mem twoSlotStore (by decide) (by decide)
  ⟨hinv, adminEdit_preserves_capacity defaultEnv twoSlotStore _ "a" "" "2024-01-02" "10:00" 7
    (sampleAppointment "a" "ta" "2024-01-01" "09:00" Status.confirmed 1) _ hinv rfl rfl
    (Or.inl (by decide))⟩

/-- Instance of C3: a third booking on the full Monday 09:00 slot of
`fullSlotStore` is refused and the store stays as it was. -/
theorem createAppointment_full_rejected_witness :
    (sampleRequest "2024-01-01" "09:00").wellFormed ∧
      isClosedDate defaultEnv "2024-01-01" fullSlotStore.blockedDates = false ∧
      fullSlotStore.settings.slotCapacity ≤
        (reservedCount fullSlotStore "2024-01-01" "09:00" : Int) ∧
      createAppointment defaultEnv fullSlotStore (sampleRequest "2024-01-01" "09:00")
          (sampleFresh "d" "td" 9) = .error "Selected time slot is full." ∧
      storeAfter fullSlotStore
        (createAppointment defaultEnv fullSlotStore (sampleRequest "2024-01-01" "09:00")
          (sampleFresh "d" "td" 9)) = fullSlotStore :=
  ⟨by decide, by decide, by decide,
    createAppointment_full_rejected defaultEnv fullSlotStore (sampleRequest "2024-01-01" "09:00")
      (sampleFresh "d" "td" 9) (by decide) (by decide) (by decide)⟩

/-- Instance of C4: two bookings on the empty Wednesday 11:00 slot of
`twoSlotStore` are served and the slot then reports 2. -/
theorem createAll_reserved_count_witness :
    ∃ written,
      createAll defaultEnv twoSlotStore
          [ (sampleRequest "2024-01-03" "11:00", sampleFresh "c" "tc" 8),
            (sampleRequest "2024-01-03" "11:00", sampleFresh "d" "td" 9) ] = .ok written ∧
        getKey (getAvailability defaultEnv "2024-01-03" written).reservedCounts "11:00" =
          some 2 :=
  have h := createAll_reserved_count defaultEnv twoSlotStore "2024-01-03" "11:00"
    [ (sampleRequest "2024-01-03" "11:00", sampleFresh "c" "tc" 8),
      (sampleRequest "2024-01-03" "11:00", sampleFresh "d" "td" 9) ]
    (by decide) (by decide) (by decide)
  h.elim fun written hw => ⟨written, hw.1, hw.2.2.1 (by decide)⟩

/-- Counterexample to C7: in `twoSlotStore` (capacity 2) the Tuesday 10:00 slot
is open, is not the slot of `a` and holds exactly `slotCapacity - 1 = 1`
non-canceled appointment, which is `b`; the reschedule of `a` into it, with the
id and token of `a`, is served and moves `a` there. -/
theorem reschedule_into_capacity_minus_one_served :
    twoSlotStore.appointments.find? (fun item => item.id == "a") =
        some (sampleAppointment "a" "ta" "2024-01-01" "09:00" Status.confirmed 1) ∧
      isClosedDate defaultEnv "2024-01-02" twoSlotStore.blockedDates = false ∧
      (reservedCount twoSlotStore "2024-01-02" "10:00" : Int) =
        twoSlotStore.settings.slotCapacity - 1 ∧
      rescheduleAppointment defaultEnv twoSlotStore "a" "ta" "2024-01-02" "10:00" 5 =
        .ok (sampleStore 2
            [ { sampleAppointment "a" "ta" "2024-01-02" "10:00" Status.rescheduled 1 with
                updatedAt := 5 },
              sampleAppointment "b" "tb" "2024-01-02" "10:00" Status.confirmed 2 ],
          { sampleAppointment "a" "ta" "2024-01-02" "10:00" Status.rescheduled 1 with
            updatedAt := 5 }) :=
  ⟨by decide, by decide, by decide, rfl⟩

/-- Instance of amended C7: the reschedule of `c` into the full Monday 09:00
slot of `fullSlotStore` is refused and nothing is written. -/
theorem rescheduleAppointment_target_capacity_witness :
    fullSlotStore.settings.slotCapacity ≤
        (reservedCount fullSlotStore "2024-01-01" "09:00" : Int) ∧
      rescheduleAppointment defaultEnv fullSlotStore "c" "tc" "2024-01-01" "09:00" 5 =
        .error "Selected time slot is full." ∧
      storeAfter fullSlotStore
        (rescheduleAppointment defaultEnv fullSlotStore "c" "tc" "2024-01-01" "09:00" 5) =
          fullSlotStore :=
  ⟨by decide,
    (rescheduleAppointment_target_capacity defaultEnv fullSlotStore "c" "2024-01-01" "09:00" 5
      (sampleAppointment "c" "tc" "2024-01-02" "10:00" Status.confirmed 3)
      (by decide) (by decide) (by decide) (by decide) (by decide) (by decide)
      (by decide)).1 (by decide)⟩

/-- Instance of C8: `a` stands alone on its slot in `twoSlotStore` (capacity 2);
rescheduling it onto that same slot is served and the slot still reports 1. -/
theorem rescheduleAppointment_same_slot_witness :
    ∃ written moved,
      rescheduleAppointment defaultEnv twoSlotStore "a" "ta" "2024-01-01" "09:00" 5 =
        .ok (written, moved) ∧
      moved.status = Status.rescheduled ∧
      orZero (getKey (getAvailability defaultEnv "2024-01-01" written).reservedCounts "09:00") =
        1 :=
  have h := rescheduleAppointment_same_slot defaultEnv twoSlotStore "a" 5
    (sampleAppointment "a" "ta" "2024-01-01" "09:00" Status.confirmed 1)
    (by decide) (by decide) (by decide) (by decide) (by decide) (by decide) (by decide)
  h.elim fun written h1 => h1.elim fun moved h2 =>
    ⟨written, moved, h2.1, h2.2.2.1, h2.2.2.2.2.2⟩

/-- Instance of C9: canceling `a` in `twoSlotStore` is served and the Monday
09:00 slot, which reported 1, reports one fewer. -/
theorem cancelAppointment_effect_witness :
    ∃ written canceled,
      cancelAppointment twoSlotStore "a" "ta" 5 = .ok (written, canceled) ∧
      canceled.status = Status.canceled ∧
      orZero (getKey (getAvailability defaultEnv "2024-01-01" written).reservedCounts "09:00")
        + 1 = 1 :=
  have h := cancelAppointment_effect defaultEnv twoSlotStore "a" 5
    (sampleAppointment "a" "ta" "2024-01-01" "09:00" Status.confirmed 1) (by decide) (by decide)
  h.elim fun written h1 => h1.elim fun canceled h2 =>
    ⟨written, canceled, h2.1, h2.2.1, h2.2.2.2.1 (by decide)⟩

/-- Counterexample to C10: in `canceledStore` the appointment `a` is canceled;
its self-service reschedule to Tuesday 10:00, with its id and token, is served
and leaves it with status rescheduled on the new date and slot. -/
theorem reschedule_revives_canceled :
    canceledStore.appointments.find? (fun item => item.id == "a") =
        some (sampleAppointment "a" "ta" "2024-01-01" "09:00" Status.canceled 1) ∧
      rescheduleAppointment defaultEnv canceledStore "a" "ta" "2024-01-02" "10:00" 5 =
        .ok (sampleStore 2
            [ { sampleAppointment "a" "ta" "2024-01-02" "10:00" Status.rescheduled 1 with
                updatedAt := 5 },
              sampleAppointment "b" "tb" "2024-01-02" "10:00" Status.confirmed 2 ],
          { sampleAppointment "a" "ta" "2024-01-02" "10:00" Status.rescheduled 1 with
            updatedAt := 5 }) :=
  ⟨by decide, rfl⟩

/-- Instance of amended C10 on the canceled `a` of `canceledStore`: a cancel
changes only `updatedAt`. -/
theorem selfService_status_transitions_witness :
    ∃ written,
      cancelAppointment canceledStore "a" "ta" 5 =
        .ok (written,
          { sampleAppointment "a" "ta" "2024-01-01" "09:00" Status.canceled 1 with
            updatedAt := 5 }) :=
  have h := selfService_status_transitions defaultEnv canceledStore "a" 5
    (sampleAppointment "a" "ta" "2024-01-01" "09:00" Status.canceled 1) (by decide) (by decide)
  (h.1 rfl).elim fun written hw => ⟨written, hw.1⟩

/-! ## Sorting lemmas -/

theorem orderedInsert_congr {α : Type} (r s : α → α → Prop) [DecidableRel r] [DecidableRel s]
    (a : α) (l : List α) (h : ∀ b ∈ l, r a b ↔ s a b) :
    l.orderedInsert r a = l.orderedInsert s a := by
  induction l with
  | nil => rfl
  | cons b rest ih =>
    have hb := h b (List.mem_cons_self _ _)
    have hrest := ih (fun c hc => h c (List.mem_cons_of_mem _ hc))
    by_cases hr : r a b
    · simp [List.orderedInsert, hr, hb.mp hr]
    · have hs : ¬ s a b := fun hs => hr (hb.mpr hs)
      simp [List.orderedInsert, hr, hs, hrest]

theorem insertionSort_congr {α : Type} (r s : α → α → Prop) [DecidableRel r] [DecidableRel s]
    (l : List α) (h : ∀ a ∈ l, ∀ b ∈ l, r a b ↔ s a b) :
    l.insertionSort r = l.insertionSort s := by
  induction l with
  | nil => rfl
  | cons a rest ih =>
    have hrest := ih (fun x hx y hy =>
      h x (List.mem_cons_of_mem _ hx) y (List.mem_cons_of_mem _ hy))
    rw [List.insertionSort, List.insertionSort, hrest]
    apply orderedInsert_congr
    intro b hb
    rw [List.mem_insertionSort] at hb
    exact h a (List.mem_cons_self _ _) b (List.mem_cons_of_mem _ hb)

theorem queueLe_total (x y : Appointment) : queueLe x y ∨ queueLe y x := by
  unfold queueLe
  simp only [← String.lt_iff_toList_lt]
  rcases lt_trichotomy x.date y.date with h | h | h
  · exact Or.inl (Or.inl h)
  · rcases lt_trichotomy x.timeSlot y.timeSlot with k | k | k
    · exact Or.inl (Or.inr ⟨h, Or.inl k⟩)
    · rcases Nat.le_total x.createdAt y.createdAt with c | c
      · exact Or.inl (Or.inr ⟨h, Or.inr ⟨k, c⟩⟩)
      · exact Or.inr (Or.inr ⟨h.symm, Or.inr ⟨k.symm, c⟩⟩)
    · exact Or.inr (Or.inr ⟨h.symm, Or.inl k⟩)
  · exact Or.inr (Or.inl h)

theorem queueLe_trans (x y z : Appointment) (hxy : queueLe x y) (hyz : queueLe y z) :
    queueLe x z := by
  unfold queueLe at *
  simp only [← String.lt_iff_toList_lt] at *
  rcases hxy with h | ⟨h, hxy⟩
  · rcases hyz with k | ⟨k, -⟩
    · exact Or.inl (lt_trans h k)
    · exact Or.inl (k ▸ h)
  · rcases hyz with k | ⟨k, hyz⟩
    · exact Or.inl (h ▸ k)
    · refine Or.inr ⟨h.trans k, ?_⟩
      rcases hxy with a | ⟨a, c⟩
      · rcases hyz with b | ⟨b, -⟩
        · exact Or.inl (lt_trans a b)
        · exact Or.inl (b ▸ a)
      · rcases hyz with b | ⟨b, d⟩
        · exact Or.inl (a ▸ b)
        · exact Or.inr ⟨a.trans b, le_trans c d⟩

/-- Under agreement of `localeCompare` with `<`, the comparator of the queue
is non-positive exactly on pairs in key order. -/
theorem compareQueue_le_iff (locale : Locale) (x y : Appointment)
    (hd : (locale.localeCompare x.date y.date < 0 ↔ x.date.toList < y.date.toList) ∧
      (locale.localeCompare x.date y.date = 0 ↔ x.date = y.date))
    (hs : (locale.localeCompare x.timeSlot y.timeSlot < 0 ↔
        x.timeSlot.toList < y.timeSlot.toList) ∧
      (locale.localeCompare x.timeSlot y.timeSlot = 0 ↔ x.timeSlot = y.timeSlot)) :
    compareQueue locale x y ≤ 0 ↔ queueLe x y := by
  unfold compareQueue queueLe
  simp only
  have hirr : ∀ s : String, ¬ s.toList < s.toList := fun s => lt_irrefl _
  by_cases h0 : locale.localeCompare x.date y.date = 0
  · have hdate := hd.2.mp h0
    have hnlt : ¬ x.date.toList < y.date.toList := by rw [hdate]; exact hirr _
    rw [if_neg (by simpa using h0)]
    by_cases h1 : locale.localeCompare x.timeSlot y.timeSlot = 0
    · have hslot := hs.2.mp h1
      have hnlt' : ¬ x.timeSlot.toList < y.timeSlot.toList := by rw [hslot]; exact hirr _
      rw [if_neg (by simpa using h1)]
      constructor
      · intro h
        exact Or.inr ⟨hdate, Or.inr ⟨hslot, by omega⟩⟩
      · rintro (h | ⟨-, h | ⟨-, h⟩⟩)
        · exact absurd h hnlt
        · exact absurd h hnlt'
        · omega
    · rw [if_pos h1]
      have hne : x.timeSlot ≠ y.timeSlot := fun h => h1 (hs.2.mpr h)
      constructor
      · intro h
        exact Or.inr ⟨hdate, Or.inl (hs.1.mp (lt_of_le_of_ne h h1))⟩
      · rintro (h | ⟨-, h | ⟨h, -⟩⟩)
        · exact absurd h hnlt
        · exact le_of_lt (hs.1.mpr h)
        · exact absurd h hne
  · rw [if_pos h0]
    have hne : x.date ≠ y.date := fun h => h0 (hd.2.mpr h)
    constructor
    · intro h
      exact Or.inl (hd.1.mp (lt_of_le_of_ne h h0))
    · rintro (h | ⟨h, -⟩)
      · exact le_of_lt (hd.1.mpr h)
      · exact absurd h hne

/-- Claim C12: For every appointment list whose dates and slots `localeCompare`
orders as `<` does, `getQueue` returns a permutation of exactly the
appointments that are not canceled, sorted ascending by the key (date, time
slot, creation time) in the sense of `queueLe`, and two appointments with the
same key stay in the order they have in the store. -/
theorem getQueue_sorted_perm (locale : Locale) (appointments : List Appointment)
    (hdates : AgreesOn locale (appointments.map (fun item => item.date)))
    (hslots : AgreesOn locale (appointments.map (fun item => item.timeSlot))) :
    (getQueue locale appointments).Perm
        (appointments.filter (fun item => item.status != Status.canceled)) ∧
      (getQueue locale appointments).Sorted queueLe ∧
      ∀ x y, x.date = y.date → x.timeSlot = y.timeSlot → x.createdAt = y.createdAt →
        [x, y].Sublist (appointments.filter (fun item => item.status != Status.canceled)) →
        [x, y].Sublist (getQueue locale appointments) := by
  have hagree : ∀ x ∈ appointments.filter (fun item => item.status != Status.canceled),
      ∀ y ∈ appointments.filter (fun item => item.status != Status.canceled),
      (compareQueue locale x y ≤ 0 ↔ queueLe x y) := by
    intro x hx y hy
    have hx' := (List.mem_filter.mp hx).1
    have hy' := (List.mem_filter.mp hy).1
    exact compareQueue_le_iff locale x y
      (hdates x.date (List.mem_map_of_mem _ hx') y.date (List.mem_map_of_mem _ hy'))
      (hslots x.timeSlot (List.mem_map_of_mem _ hx') y.timeSlot (List.mem_map_of_mem _ hy'))
  refine ⟨List.perm_insertionSort _ _, ?_, ?_⟩
  · unfold getQueue sortBy
    rw [insertionSort_congr _ queueLe _ hagree]
    haveI : IsTotal Appointment queueLe := ⟨queueLe_total⟩
    haveI : IsTrans Appointment queueLe := ⟨queueLe_trans⟩
    exact List.sorted_insertionSort queueLe _
  · intro x y hd hs hc hsub
    have hx := hsub.subset (List.mem_cons_self _ _)
    have hy := hsub.subset (List.mem_cons_of_mem _ (List.mem_cons_self _ _))
    apply List.pair_sublist_insertionSort _ hsub
    exact (hagree x hx y hy).mpr (Or.inr ⟨hd, Or.inr ⟨hs, le_of_eq hc⟩⟩)

/-- Instance of C12 on `queueStore`: the canceled `c` is left out, `b` comes
first and `a` stays before `d`, which has the same key. -/
theorem getQueue_sorted_perm_witness :
    AgreesOn asciiLocale (queueStore.appointments.map (fun item => item.date)) ∧
      AgreesOn asciiLocale (queueStore.appointments.map (fun item => item.timeSlot)) ∧
      (getQueue asciiLocale queueStore.appointments).map (fun item => item.id) =
        ["b", "a", "d"] ∧
      (getQueue asciiLocale queueStore.appointments).Sorted queueLe :=
  ⟨by decide, by decide, by decide,
    (getQueue_sorted_perm asciiLocale queueStore.appointments (by decide) (by decide)).2.1⟩

/-- Claim C11, amended: With a non-empty token, each self-service endpoint
answers an id that matches no appointment exactly as it answers an id whose
appointment has another token, and writes nothing in either case. For the
read and the cancel both answers are "Invalid token."; for the reschedule
both are the same error, which is "Invalid token." whenever the requested
date and slot pass the format and slot validation made before the lookup. -/
theorem token_mismatch_as_not_found (env : Env) (store : Store)
    (unknownId knownId token date timeSlot : String) (now : Nat) (other : Appointment)
    (htoken : token ≠ "")
    (hnone : store.appointments.find? (fun item => item.id == unknownId) = none)
    (hsome : store.appointments.find? (fun item => item.id == knownId) = some other)
    (hdiff : other.manageToken ≠ token) :
    (getAppointment store unknownId token = .error "Invalid token." ∧
        getAppointment store knownId token = .error "Invalid token.") ∧
      (cancelAppointment store unknownId token now = .error "Invalid token." ∧
        cancelAppointment store knownId token now = .error "Invalid token.") ∧
      (∃ message,
        rescheduleAppointment env store unknownId token date timeSlot now = .error message ∧
        rescheduleAppointment env store knownId token date timeSlot now = .error message ∧
        (dateFormat date = true → validSlot timeSlot = true → message = "Invalid token.")) ∧
      storeAfter store (cancelAppointment store unknownId token now) = store ∧
      storeAfter store (cancelAppointment store knownId token now) = store ∧
      storeAfter store (rescheduleAppointment env store unknownId token date timeSlot now) =
        store ∧
      storeAfter store (rescheduleAppointment env store knownId token date timeSlot now) =
        store := by
  have hget1 : getAppointment store unknownId token = .error "Invalid token." := by
    simp only [getAppointment, htoken, if_false, hnone]
  have hget2 : getAppointment store knownId token = .error "Invalid token." := by
    simp only [getAppointment, htoken, if_false, hsome, ne_eq, hdiff, not_false_eq_true, if_true]
  have hcan1 : cancelAppointment store unknownId token now = .error "Invalid token." := by
    simp only [cancelAppointment, htoken, if_false, hnone]
  have hcan2 : cancelAppointment store knownId token now = .error "Invalid token." := by
    simp only [cancelAppointment, htoken, if_false, hsome, ne_eq, hdiff, not_false_eq_true,
      if_true]
  have hres : ∃ message,
      rescheduleAppointment env store unknownId token date timeSlot now = .error message ∧
      rescheduleAppointment env store knownId token date timeSlot now = .error message ∧
      (dateFormat date = true → validSlot timeSlot = true → message = "Invalid token.") := by
    unfold rescheduleAppointment
    by_cases h1 : token = "" ∨ date = "" ∨ timeSlot = ""
    · refine ⟨"Token, date, and time slot are required.", by rw [if_pos h1], by rw [if_pos h1], ?_⟩
      intro hd hs
      rcases h1 with h | h | h
      · exact absurd h htoken
      · subst h; simp [dateFormat] at hd
      · subst h; revert hs; decide
    · by_cases h2 : (!dateFormat date) = true
      · refine ⟨"Invalid date format.", by rw [if_neg h1, if_pos h2],
          by rw [if_neg h1, if_pos h2], ?_⟩
        intro hd
        rw [hd] at h2
        simp at h2
      · by_cases h3 : (!validSlot timeSlot) = true
        · refine ⟨"Invalid time slot.", by rw [if_neg h1, if_neg h2, if_pos h3],
            by rw [if_neg h1, if_neg h2, if_pos h3], ?_⟩
          intro _ hs
          rw [hs] at h3
          simp at h3
        · refine ⟨"Invalid token.", ?_, ?_, fun _ _ => rfl⟩
          · rw [if_neg h1, if_neg h2, if_neg h3, hnone]
          · rw [if_neg h1, if_neg h2, if_neg h3, hsome]
            simp only [ne_eq, hdiff, not_false_eq_true, if_true]
  obtain ⟨message, hr1, hr2, hmsg⟩ := hres
  refine ⟨⟨hget1, hget2⟩, ⟨hcan1, hcan2⟩, ⟨message, hr1, hr2, hmsg⟩, ?_, ?_, ?_, ?_⟩
  · rw [hcan1]; rfl
  · rw [hcan2]; rfl
  · rw [hr1]; rfl
  · rw [hr2]; rfl

/-- Counterexample to C11: a reschedule of `a` in `twoSlotStore` with a
non-empty token that is not the token of `a` and the malformed date
"2024-1-2" is answered with "Invalid date format.", not with
"Invalid token."; so is the same request for the unknown id `zz`. -/
theorem reschedule_wrong_token_validation_first :
    twoSlotStore.appointments.find? (fun item => item.id == "a") =
        some (sampleAppointment "a" "ta" "2024-01-01" "09:00" Status.confirmed 1) ∧
      twoSlotStore.appointments.find? (fun item => item.id == "zz") = none ∧
      "wrong" ≠ "" ∧ "ta" ≠ "wrong" ∧
      rescheduleAppointment defaultEnv twoSlotStore "a" "wrong" "2024-1-2" "09:00" 5 =
        .error "Invalid date format." ∧
      rescheduleAppointment defaultEnv twoSlotStore "zz" "wrong" "2024-1-2" "09:00" 5 =
        .error "Invalid date format." ∧
      "Invalid date format." ≠ "Invalid token." :=
  ⟨by decide, by decide, by decide, by decide, rfl, rfl, by decide⟩

/-- Instance of amended C11 on `twoSlotStore`: the known id `a` and the
unknown id `zz`, both with the token "wrong" and a valid target, get
"Invalid token.". -/
theorem token_mismatch_as_not_found_witness :
    getAppointment twoSlotStore "zz" "wrong" = .error "Invalid token." ∧
      getAppointment twoSlotStore "a" "wrong" = .error "Invalid token." ∧
      cancelAppointment twoSlotStore "zz" "wrong" 5 = .error "Invalid token." ∧
      cancelAppointment twoSlotStore "a" "wrong" 5 = .error "Invalid token." :=
  have h := token_mismatch_as_not_found defaultEnv twoSlotStore "zz" "a" "wrong" "2024-01-02"
    "10:00" 5 (sampleAppointment "a" "ta" "2024-01-01" "09:00" Status.confirmed 1)
    (by decide) (by decide) (by decide) (by decide)
  ⟨h.1.1, h.1.2, h.2.1.1, h.2.1.2⟩

/-! ## Search lemmas -/

/-- The first element of a list sorted by descending creation time is the
first of the most recently created elements of the list. -/
theorem sortBy_createdAt_head (l : List Appointment) (hne : l ≠ []) :
    ∃ a pre post rest, l = pre ++ a :: post ∧ (∀ b ∈ pre, b.createdAt < a.createdAt) ∧
      (∀ b ∈ post, b.createdAt ≤ a.createdAt) ∧
      sortBy (fun x y : Appointment => (y.createdAt : Int) - (x.createdAt : Int)) l =
        a :: rest := by
  induction l with
  | nil => exact absurd rfl hne
  | cons x tail ih =>
    by_cases htail : tail = []
    · subst htail
      exact ⟨x, [], [], [], rfl, by simp, by simp, rfl⟩
    · obtain ⟨a, pre, post, rest, hsplit, hpre, hpost, hsort⟩ := ih htail
      have hsort' : tail.insertionSort
          (fun x y : Appointment => (y.createdAt : Int) - (x.createdAt : Int) ≤ 0) =
          a :: rest := hsort
      by_cases hle : a.createdAt ≤ x.createdAt
      · refine ⟨x, [], tail, a :: rest, rfl, by simp, ?_, ?_⟩
        · intro b hb
          rw [hsplit] at hb
          rcases List.mem_append.mp hb with h | h
          · exact le_trans (le_of_lt (hpre b h)) hle
          · rcases List.mem_cons.mp h with h | h
            · rw [h]; exact hle
            · exact le_trans (hpost b h) hle
        · show (x :: tail).insertionSort _ = _
          rw [List.insertionSort, hsort', List.orderedInsert, if_pos (by show _ - _ ≤ (0 : Int); omega)]
      · refine ⟨a, x :: pre, post,
          rest.orderedInsert
            (fun x y : Appointment => (y.createdAt : Int) - (x.createdAt : Int) ≤ 0) x,
          by rw [hsplit]; rfl, ?_, hpost, ?_⟩
        · intro b hb
          rcases List.mem_cons.mp hb with h | h
          · rw [h]; omega
          · exact hpre b h
        · show (x :: tail).insertionSort _ = _
          rw [List.insertionSort, hsort', List.orderedInsert,
            if_neg (by show ¬ _ - _ ≤ (0 : Int); omega)]

theorem findIndex_eq_none {α : Type} (p : α → Bool) (l : List α) :
    findIndex p l = none ↔ ∀ x ∈ l, p x = false := by
  induction l with
  | nil => simp [findIndex]
  | cons x rest ih =>
    by_cases hx : p x = true
    · simp [findIndex, hx]
    · simp only [Bool.not_eq_true] at hx
      simp [findIndex, hx, ih]

theorem findIndex_eq_some {α : Type} (p : α → Bool) (l : List α) (i : Nat)
    (h : findIndex p l = some i) : ∃ x, l[i]? = some x ∧ p x = true := by
  induction l generalizing i with
  | nil => simp [findIndex] at h
  | cons x rest ih =>
    by_cases hx : p x = true
    · simp only [findIndex, hx, if_true, Option.some.injEq] at h
      subst h
      exact ⟨x, by simp, hx⟩
    · simp only [findIndex, hx, Bool.false_eq_true, if_false, Option.map_eq_some'] at h
      obtain ⟨j, hj, rfl⟩ := h
      obtain ⟨y, hy, hpy⟩ := ih j hj
      exact ⟨y, by simpa using hy, hpy⟩

/-- Claim C13: For a store with pairwise distinct ids and a non-empty query
email, the search answers `{ appointment: null }` when no stored email equals
the query ignoring letter case; otherwise it answers the first, in store
order, of the matching appointments with the greatest creation time, with the
1-based index of that appointment in `getQueue`, or "Not in queue" exactly
when the appointment is canceled. -/
theorem searchAppointment_spec (locale : Locale) (store : Store) (email : String)
    (hemail : email ≠ "")
    (hids : (store.appointments.map (fun item => item.id)).Nodup) :
    ((∀ item ∈ store.appointments, emailMatches locale email item = false) →
        searchAppointment locale store email = SearchResponse.noMatch) ∧
      ((∃ item ∈ store.appointments, emailMatches locale email item = true) →
        ∃ a position pre post,
          searchAppointment locale store email = SearchResponse.found a position ∧
          store.appointments.filter (emailMatches locale email) = pre ++ a :: post ∧
          (∀ b ∈ pre, b.createdAt < a.createdAt) ∧
          (∀ b ∈ post, b.createdAt ≤ a.createdAt) ∧
          (position = none ↔ a.status = Status.canceled) ∧
          ∀ n, position = some n →
            1 ≤ n ∧ (getQueue locale store.appointments)[n - 1]? = some a) := by
  have hfun : (fun item : Appointment =>
      locale.toLowerCase item.email == locale.toLowerCase email) = emailMatches locale email :=
    rfl
  constructor
  · intro hnone
    have hfilter : store.appointments.filter (emailMatches locale email) = [] := by
      rw [List.filter_eq_nil_iff]
      intro item hitem
      rw [hnone item hitem]
      decide
    unfold searchAppointment
    rw [if_neg hemail, hfun]
    simp only [hfilter]
    rfl
  · rintro ⟨item, hitem, hmatch⟩
    have hne : store.appointments.filter (emailMatches locale email) ≠ [] := by
      intro h
      have : item ∈ store.appointments.filter (emailMatches locale email) :=
        List.mem_filter.mpr ⟨hitem, hmatch⟩
      rw [h] at this
      exact absurd this (List.not_mem_nil _)
    obtain ⟨a, pre, post, rest, hsplit, hpre, hpost, hsort⟩ := sortBy_createdAt_head _ hne
    have ha : a ∈ store.appointments := by
      have : a ∈ store.appointments.filter (emailMatches locale email) := by
        rw [hsplit]; simp
      exact (List.mem_filter.mp this).1
    have hqueue : ∀ x, x ∈ getQueue locale store.appointments ↔
        x ∈ store.appointments ∧ x.status ≠ Status.canceled := by
      intro x
      unfold getQueue sortBy
      rw [List.mem_insertionSort, List.mem_filter]
      simp
    have hres : searchAppointment locale store email =
        match findIndex (fun item => item.id == a.id) (getQueue locale store.appointments) with
        | none => SearchResponse.found a none
        | some position => SearchResponse.found a (some (position + 1)) := by
      unfold searchAppointment
      rw [if_neg hemail, hfun]
      simp only [hsort]
    cases hfind : findIndex (fun item => item.id == a.id)
        (getQueue locale store.appointments) with
    | none =>
      rw [hfind] at hres
      refine ⟨a, none, pre, post, hres, hsplit, hpre, hpost, ?_, ?_⟩
      · constructor
        · intro _
          by_contra hlive
          have hmem := (hqueue a).mpr ⟨ha, hlive⟩
          have := (findIndex_eq_none _ _).mp hfind a hmem
          simp at this
        · intro _; rfl
      · intro n hn
        exact absurd hn (by simp)
    | some i =>
      rw [hfind] at hres
      obtain ⟨x, hx, hpx⟩ := findIndex_eq_some _ _ i hfind
      have hxmem : x ∈ getQueue locale store.appointments := List.getElem?_mem hx
      obtain ⟨hxstore, hxlive⟩ := (hqueue x).mp hxmem
      have hxa : x = a :=
        List.inj_on_of_nodup_map hids hxstore ha (by simpa using hpx)
      subst hxa
      refine ⟨x, some (i + 1), pre, post, hres, hsplit, hpre, hpost, ?_, ?_⟩
      · constructor
        · intro h; exact absurd h (by simp)
        · intro h; exact absurd h hxlive
      · intro n hn
        simp only [Option.some.injEq] at hn
        subst hn
        exact ⟨by omega, by simpa using hx⟩

/-- Instance of C13 on `queueStore`, where every email matches the query
ignoring case: the answer is `b`, the most recently created appointment,
first in the queue. -/
theorem searchAppointment_spec_witness :
    searchAppointment asciiLocale queueStore "SARA@Example.com" =
        SearchResponse.found (sampleAppointment "b" "tb" "2024-01-02" "09:00" Status.confirmed 7)
          (some 1) ∧
      ∃ a position, searchAppointment asciiLocale queueStore "SARA@Example.com" =
        SearchResponse.found a position ∧ (position = none ↔ a.status = Status.canceled) :=
  have h := (searchAppointment_spec asciiLocale queueStore "SARA@Example.com" (by decide)
    (by decide)).2
    ⟨sampleAppointment "b" "tb" "2024-01-02" "09:00" Status.confirmed 7, by decide, by decide⟩
  ⟨by decide, h.elim fun a h1 => h1.elim fun position h2 => h2.elim fun _ h3 =>
    h3.elim fun _ h4 => ⟨a, position, h4.1, h4.2.2.2.2.1⟩⟩

/-! ## Rate quoter -/

/-- A call that finds the cache empty or expired runs the refresh. -/
theorem fetchRates_of_miss (locale : Locale) (cache : RateCache) (now : Nat)
    (upstream : UpstreamResponse) (store : Store) (later : Nat) (showAll : Bool)
    (hmiss : cache.data = none ∨ cache.expiresAt ≤ now) :
    fetchRates locale cache now upstream store later showAll =
      refreshRates locale cache now upstream store later showAll := by
  unfold fetchRates
  rcases hmiss with h | h
  · rw [h]
  · cases hdata : cache.data with
    | none => rfl
    | some data => simp only [if_neg (not_lt.mpr h)]

/-- On a cache miss with a usable IRR rate the quotes are the sorted images of
the codes that pass the filter. -/
theorem fetchRates_miss_rates (locale : Locale) (cache : RateCache) (now : Nat)
    (upstream : UpstreamResponse) (store : Store) (later : Nat) (showAll : Bool)
    (rates : List (String × ℚ)) (irr : ℚ)
    (hmiss : cache.data = none ∨ cache.expiresAt ≤ now)
    (hrates : upstream.rates = some rates) (hirr : rateOf rates "IRR" = some irr)
    (hne : irr ≠ 0) :
    fetchRates locale cache now upstream store later showAll =
        refreshRates locale cache now upstream store later showAll ∧
      (refreshRates locale cache now upstream store later showAll).1.rates =
        sortBy (fun a b : RateQuote => locale.localeCompare a.code b.code)
          (((if showAll then rates.map (fun entry => entry.1) else DEFAULT_CURRENCIES).filter
            (fun code => code != "IRR" && truthyRate (rateOf rates code))).map
            (quoteFor rates irr store)) ∧
      (refreshRates locale cache now upstream store later showAll).2.expiresAt =
        now + 300000 ∧
      (refreshRates locale cache now upstream store later showAll).2.data =
        some (refreshRates locale cache now upstream store later showAll).1 := by
  refine ⟨fetchRates_of_miss locale cache now upstream store later showAll hmiss, ?_, ?_, ?_⟩
  · simp only [refreshRates, hrates, Option.getD_some, hirr, if_neg hne]
  · simp only [refreshRates, hrates, Option.getD_some, hirr, if_neg hne]
  · simp only [refreshRates, hrates, Option.getD_some, hirr, if_neg hne]

/-- Claim C14: In exact rational arithmetic, when the upstream table has a
non-zero IRR rate and the cache does not answer, every quote returned by
`fetchRates` is for a code other than IRR with a non-zero rate `r` and has
`buy = mid * (1 - buyMargin)` and `sell = mid * (1 + sellMargin)` for
`mid = rates[IRR] / r`; every requested code with a non-zero rate is quoted;
with `mid = 100`, `buyMargin = 0.012` and `sellMargin = 0.018` the quote is
`buy = 98.8`, `sell = 101.8`. -/
theorem fetchRates_quotes (locale : Locale) (cache : RateCache) (now : Nat)
    (upstream : UpstreamResponse) (store : Store) (later : Nat) (showAll : Bool)
    (rates : List (String × ℚ)) (irr : ℚ)
    (hmiss : cache.data = none ∨ cache.expiresAt ≤ now)
    (hrates : upstream.rates = some rates) (hirr : rateOf rates "IRR" = some irr)
    (hne : irr ≠ 0) :
    (∀ q ∈ (fetchRates locale cache now upstream store later showAll).1.rates,
        ∃ r, rateOf rates q.code = some r ∧ r ≠ 0 ∧ q.code ≠ "IRR" ∧
          q.buy = irr / r * (1 - store.settings.buyMargin) ∧
          q.sell = irr / r * (1 + store.settings.sellMargin)) ∧
      (∀ code r,
        code ∈ (if showAll then rates.map (fun entry => entry.1) else DEFAULT_CURRENCIES) →
        code ≠ "IRR" → rateOf rates code = some r → r ≠ 0 →
        ∃ q ∈ (fetchRates locale cache now upstream store later showAll).1.rates,
          q.code = code ∧ q.buy = irr / r * (1 - store.settings.buyMargin) ∧
          q.sell = irr / r * (1 + store.settings.sellMargin)) ∧
      (∀ q ∈ (fetchRates locale cache now upstream store later showAll).1.rates,
        ∀ r, rateOf rates q.code = some r → irr / r = 100 →
          store.settings.buyMargin = 12 / 1000 → store.settings.sellMargin = 18 / 1000 →
          q.buy = 988 / 10 ∧ q.sell = 1018 / 10) := by
  obtain ⟨hfetch, hlist, -, -⟩ := fetchRates_miss_rates locale cache now upstream store later
    showAll rates irr hmiss hrates hirr hne
  have hmem : ∀ q, q ∈ (fetchRates locale cache now upstream store later showAll).1.rates ↔
      ∃ code, (code ∈ (if showAll then rates.map (fun entry => entry.1)
          else DEFAULT_CURRENCIES) ∧
        (code != "IRR" && truthyRate (rateOf rates code)) = true) ∧
        quoteFor rates irr store code = q := by
    intro q
    rw [hfetch, hlist, sortBy, List.mem_insertionSort, List.mem_map]
    simp only [List.mem_filter]
  have hquote : ∀ code, (code != "IRR" && truthyRate (rateOf rates code)) = true →
      ∃ r, rateOf rates code = some r ∧ r ≠ 0 ∧ code ≠ "IRR" ∧
        (quoteFor rates irr store code).code = code ∧
        (quoteFor rates irr store code).buy = irr / r * (1 - store.settings.buyMargin) ∧
        (quoteFor rates irr store code).sell = irr / r * (1 + store.settings.sellMargin) := by
    intro code hcode
    rw [Bool.and_eq_true] at hcode
    obtain ⟨hc, ht⟩ := hcode
    cases hr : rateOf rates code with
    | none => rw [hr] at ht; simp [truthyRate] at ht
    | some r =>
      rw [hr] at ht
      refine ⟨r, rfl, by simpa [truthyRate] using ht, by simpa using hc, rfl, ?_, ?_⟩
      · simp [quoteFor, hr]
      · simp [quoteFor, hr]
  have hfirst : ∀ q ∈ (fetchRates locale cache now upstream store later showAll).1.rates,
      ∃ r, rateOf rates q.code = some r ∧ r ≠ 0 ∧ q.code ≠ "IRR" ∧
        q.buy = irr / r * (1 - store.settings.buyMargin) ∧
        q.sell = irr / r * (1 + store.settings.sellMargin) := by
    intro q hq
    obtain ⟨code, ⟨-, hcode⟩, rfl⟩ := (hmem q).mp hq
    obtain ⟨r, h1, h2, h3, h4, h5, h6⟩ := hquote code hcode
    exact ⟨r, by rw [h4]; exact h1, h2, by rw [h4]; exact h3, h5, h6⟩
  refine ⟨hfirst, ?_, ?_⟩
  · intro code r hcode hirr' hr hr0
    have hpass : (code != "IRR" && truthyRate (rateOf rates code)) = true := by
      rw [hr]
      simp [truthyRate, hirr', hr0]
    obtain ⟨r', h1, -, -, h4, h5, h6⟩ := hquote code hpass
    rw [hr] at h1
    obtain rfl : r = r' := Option.some.inj h1
    exact ⟨quoteFor rates irr store code, (hmem _).mpr ⟨code, ⟨hcode, hpass⟩, rfl⟩, h4, h5, h6⟩
  · intro q hq r hr hmid hb hs
    obtain ⟨r', h1, -, -, h5, h6⟩ := hfirst q hq
    rw [hr] at h1
    obtain rfl : r = r' := Option.some.inj h1
    rw [h5, h6, hmid, hb, hs]
    constructor <;> norm_num

/-- Instance of C14: with the dollar at 100 rials and the default margins the
dollar quote is bought at 98.8 and sold at 101.8. -/
theorem fetchRates_quotes_witness :
    ∃ q ∈ (fetchRates asciiLocale emptyCache 1000 sampleUpstream DEFAULT_STORE 2000 false).1.rates,
      q.code = "USD" ∧ q.buy = 988 / 10 ∧ q.sell = 1018 / 10 :=
  have h := fetchRates_quotes asciiLocale emptyCache 1000 sampleUpstream DEFAULT_STORE 2000 false
    [("USD", 1), ("EUR", 10 / 11), ("IRR", 100), ("XXX", 0)] 100 (Or.inl rfl) rfl rfl
    (by norm_num)
  (h.2.1 "USD" 1 (by decide) (by decide) rfl one_ne_zero).elim fun q hq =>
    ⟨q, hq.1, hq.2.1, h.2.2 q hq.1 1 (by rw [hq.2.1]; rfl) (by norm_num) rfl rfl⟩

/-- Claim C19: A `fetchRates` call at time `t0` that misses the cache and reads
an upstream body with a usable IRR rate leaves a cache holding the payload it
returned, expiring at `t0 + 300000`. Every later call before that time, for
either value of `showAll` and whatever the upstream body, the store and the
clock, returns that payload and leaves the cache as it is; a call at or after
that time runs the refresh on the upstream body. A refresh on a body without
a usable IRR rate answers an empty list and leaves the cache as it was. -/
theorem fetchRates_cache_window (locale : Locale) (cache : RateCache) (t0 : Nat)
    (upstream0 : UpstreamResponse) (store0 : Store) (later0 : Nat) (showAll0 : Bool)
    (rates : List (String × ℚ)) (irr : ℚ)
    (hmiss : cache.data = none ∨ cache.expiresAt ≤ t0)
    (hrates : upstream0.rates = some rates) (hirr : rateOf rates "IRR" = some irr)
    (hne : irr ≠ 0) :
    (fetchRates locale cache t0 upstream0 store0 later0 showAll0).2.expiresAt = t0 + 300000 ∧
      (fetchRates locale cache t0 upstream0 store0 later0 showAll0).2.data =
        some (fetchRates locale cache t0 upstream0 store0 later0 showAll0).1 ∧
      (∀ t upstream store later showAll, t < t0 + 300000 →
        fetchRates locale (fetchRates locale cache t0 upstream0 store0 later0 showAll0).2 t
            upstream store later showAll =
          ((fetchRates locale cache t0 upstream0 store0 later0 showAll0).1,
            (fetchRates locale cache t0 upstream0 store0 later0 showAll0).2)) ∧
      (∀ t upstream store later showAll, t0 + 300000 ≤ t →
        fetchRates locale (fetchRates locale cache t0 upstream0 store0 later0 showAll0).2 t
            upstream store later showAll =
          refreshRates locale (fetchRates locale cache t0 upstream0 store0 later0 showAll0).2 t
            upstream store later showAll) ∧
      (∀ anyCache t upstream store later showAll,
        (anyCache.data = none ∨ anyCache.expiresAt ≤ t) →
        (∀ r, rateOf (upstream.rates.getD []) "IRR" = some r → r = 0) →
        fetchRates locale anyCache t upstream store later showAll =
          ({ updatedAt := later, rates := [] }, anyCache)) := by
  obtain ⟨hfetch, -, hexp, hdata⟩ := fetchRates_miss_rates locale cache t0 upstream0 store0
    later0 showAll0 rates irr hmiss hrates hirr hne
  rw [hfetch]
  refine ⟨hexp, hdata, ?_, ?_, ?_⟩
  · intro t upstream store later showAll ht
    unfold fetchRates
    rw [hdata]
    simp only
    rw [hexp, if_pos ht]
  · intro t upstream store later showAll ht
    unfold fetchRates
    rw [hdata]
    simp only
    rw [hexp, if_neg (not_lt.mpr ht)]
  · intro anyCache t upstream store later showAll hmiss' hlack
    rw [fetchRates_of_miss locale anyCache t upstream store later showAll hmiss']
    unfold refreshRates
    simp only
    cases hr : rateOf (upstream.rates.getD []) "IRR" with
    | none => rfl
    | some r =>
      simp only
      rw [if_pos (hlack r hr)]

/-- Instance of C19: after a first call at time 1000 on `sampleUpstream` the
cache expires at 301000, and a call at time 300999 on a body without rates
still returns the first payload. -/
theorem fetchRates_cache_window_witness :
    (fetchRates asciiLocale emptyCache 1000 sampleUpstream DEFAULT_STORE 2000 false).2.expiresAt =
        301000 ∧
      fetchRates asciiLocale
          (fetchRates asciiLocale emptyCache 1000 sampleUpstream DEFAULT_STORE 2000 false).2
          300999 { rates := none, time_last_update_unix := none } DEFAULT_STORE 300999 true =
        ((fetchRates asciiLocale emptyCache 1000 sampleUpstream DEFAULT_STORE 2000 false).1,
          (fetchRates asciiLocale emptyCache 1000 sampleUpstream DEFAULT_STORE 2000 false).2) :=
  have h := fetchRates_cache_window asciiLocale emptyCache 1000 sampleUpstream DEFAULT_STORE 2000
    false [("USD", 1), ("EUR", 10 / 11), ("IRR", 100), ("XXX", 0)] 100 (Or.inl rfl) rfl rfl
    (by norm_num)
  ⟨h.1, h.2.2.1 300999 { rates := none, time_last_update_unix := none } DEFAULT_STORE 300999
    true (by decide)⟩

/-! ## Identity of appointments -/

theorem map_identityOf_updateFound (id : String) (f : Appointment → Appointment)
    (hf : ∀ a, identityOf (f a) = identityOf a) (l : List Appointment) :
    (updateFound id f l).map identityOf = l.map identityOf := by
  induction l with
  | nil => rfl
  | cons item rest ih =>
    by_cases hid : (item.id == id) = true
    · simp [updateFound, hid, hf]
    · simp [updateFound, hid, ih]

/-- Claim C15: Whatever the request, after a create, a self-service reschedule,
a self-service cancel, an admin edit, or the addition or removal of a blocked
date, the appointments stored before are all still there, in the same
positions, each with the id and the management token it had; a create only
appends at the end and the blocked-date handlers leave the appointment list
as it is. -/
theorem identities_preserved (env : Env) (store : Store) :
    (∀ req fresh, ∃ extra,
        (storeAfter store (createAppointment env store req fresh)).appointments =
          store.appointments ++ extra) ∧
      (∀ id token date timeSlot now,
        (storeAfter store
          (rescheduleAppointment env store id token date timeSlot now)).appointments.map
            identityOf = store.appointments.map identityOf) ∧
      (∀ id token now,
        (storeAfter store (cancelAppointment store id token now)).appointments.map identityOf =
          store.appointments.map identityOf) ∧
      (∀ id status date timeSlot now,
        (storeAfter store
          (adminEditAppointment env store id status date timeSlot now)).appointments.map
            identityOf = store.appointments.map identityOf) ∧
      (∀ date written, addBlockedDate store date = .ok written →
        written.appointments = store.appointments) ∧
      (∀ date, (removeBlockedDate store date).appointments = store.appointments) := by
  refine ⟨?_, ?_, ?_, ?_, ?_, ?_⟩
  · intro req fresh
    cases h : createAppointment env store req fresh with
    | error message => exact ⟨[], by simp [storeAfter]⟩
    | ok result =>
      obtain ⟨written, a⟩ := result
      obtain ⟨-, -, -, hw, -⟩ := createAppointment_ok_inv env store written req fresh a h
      exact ⟨[a], by simp [storeAfter, hw]⟩
  · intro id token date timeSlot now
    cases h : rescheduleAppointment env store id token date timeSlot now with
    | error message => rfl
    | ok result =>
      obtain ⟨written, a⟩ := result
      obtain ⟨found, -, -, -, -, -, -, -, hw, -⟩ :=
        rescheduleAppointment_ok_inv env store written id token date timeSlot now a h
      simp only [storeAfter, hw]
      exact map_identityOf_updateFound id (applyReschedule date timeSlot now) (fun _ => rfl) _
  · intro id token now
    cases h : cancelAppointment store id token now with
    | error message => rfl
    | ok result =>
      obtain ⟨written, a⟩ := result
      obtain ⟨found, -, -, -, hw, -⟩ := cancelAppointment_ok_inv store written id token now a h
      simp only [storeAfter, hw]
      exact map_identityOf_updateFound id (applyCancel now) (fun _ => rfl) _
  · intro id status date timeSlot now
    cases h : adminEditAppointment env store id status date timeSlot now with
    | error message => rfl
    | ok result =>
      obtain ⟨written, a⟩ := result
      obtain ⟨found, -, -, -, hw, -⟩ :=
        adminEditAppointment_ok_inv env store written id status date timeSlot now a h
      simp only [storeAfter, hw]
      exact map_identityOf_updateFound id (applyAdminEdit status date timeSlot now)
        (fun _ => rfl) _
  · intro date written h
    unfold addBlockedDate at h
    split at h
    · simp at h
    · simp only [Except.ok.injEq] at h
      rw [← h]
  · intro date
    rfl

/-! ## The create endpoint -/

/-- The create handler answers with an error exactly when the request is not
well formed, the date is closed or the slot has no room. -/
theorem createAppointment_error_iff (env : Env) (store : Store) (req : CreateRequest)
    (fresh : Fresh) :
    (∃ message, createAppointment env store req fresh = .error message) ↔
      ¬ (req.wellFormed ∧ isClosedDate env req.date store.blockedDates = false ∧
        (reservedCount store req.date req.timeSlot : Int) < store.settings.slotCapacity) := by
  constructor
  · rintro ⟨message, hmsg⟩ ⟨hwf, hopen, hroom⟩
    obtain ⟨a, ha⟩ := createAppointment_ok env store req fresh hwf hopen hroom
    rw [hmsg] at ha
    exact absurd ha (by simp)
  · intro hnot
    cases h : createAppointment env store req fresh with
    | error message => exact ⟨message, rfl⟩
    | ok result =>
      obtain ⟨written, a⟩ := result
      obtain ⟨hwf, hopen, hroom, -⟩ := createAppointment_ok_inv env store written req fresh a h
      exact absurd ⟨hwf, hopen, hroom⟩ hnot

/-- Claim C16, amended: The create route answers with an error if and only if
the upload middleware refuses the request (the upload library raises an error
of its own, or `fileFilter` refuses the attached file because its MIME type
is not PDF, JPEG or PNG), or one of the seven text fields is empty, or no file
is attached, or the date is not of the form of four, two and two digits, or
the slot is not one of the eight values, or the date is closed, or the
reserved count of the pair is at least `slotCapacity`. In every error case the
store is unchanged; otherwise exactly one appointment, with status confirmed
and the submitted date and slot, is appended and the rest of the store is as
before. -/
theorem postAppointment_error_iff (env : Env) (store : Store) (fields : CreateFields)
    (body : Multipart) (fresh : Fresh) :
    ((∃ message, postAppointment env store fields body fresh = .error message) ↔
        ((∃ message, body = Multipart.refused message) ∨
          (∃ upload storedName, body = Multipart.file upload storedName ∧
            upload.mimetype ∉ ["application/pdf", "image/jpeg", "image/png"]) ∨
          (fields.firstName = "" ∨ fields.lastName = "" ∨ fields.email = "" ∨
            fields.documentType = "" ∨ fields.documentNumber = "" ∨ fields.date = "" ∨
            fields.timeSlot = "") ∨
          body = Multipart.noFile ∨ dateFormat fields.date = false ∨
          validSlot fields.timeSlot = false ∨
          isClosedDate env fields.date store.blockedDates = true ∨
          store.settings.slotCapacity ≤ (reservedCount store fields.date fields.timeSlot : Int))) ∧
      ((∃ message, postAppointment env store fields body fresh = .error message) →
        storeAfter store (postAppointment env store fields body fresh) = store) ∧
      (∀ written a, postAppointment env store fields body fresh = .ok (written, a) →
        written = { store with appointments := store.appointments ++ [a] } ∧
          a.status = Status.confirmed ∧ a.date = fields.date ∧ a.timeSlot = fields.timeSlot) := by
  refine ⟨?_, ?_, ?_⟩
  · cases body with
    | refused message =>
      constructor
      · intro _
        exact Or.inl ⟨message, rfl⟩
      · intro _
        exact ⟨errorHandler message, rfl⟩
    | noFile =>
      have hpost : postAppointment env store fields Multipart.noFile fresh =
          createAppointment env store
            { firstName := fields.firstName, lastName := fields.lastName, email := fields.email,
              documentType := fields.documentType, documentNumber := fields.documentNumber,
              date := fields.date, timeSlot := fields.timeSlot, file := none } fresh := rfl
      rw [hpost, createAppointment_error_iff]
      constructor
      · intro _
        exact Or.inr (Or.inr (Or.inr (Or.inl rfl)))
      · rintro - ⟨hwf, -⟩
        have := hwf.2.2.2.2.2.2.2.1
        simp at this
    | file upload storedName =>
      by_cases hmime : upload.mimetype ∈ ["application/pdf", "image/jpeg", "image/png"]
      · have hpost : postAppointment env store fields (Multipart.file upload storedName) fresh =
            createAppointment env store
              { firstName := fields.firstName, lastName := fields.lastName,
                email := fields.email, documentType := fields.documentType,
                documentNumber := fields.documentNumber, date := fields.date,
                timeSlot := fields.timeSlot,
                file := some
                  { originalName := upload.originalname, fileName := storedName,
                    mimeType := upload.mimetype, size := upload.size } } fresh := by
          simp [postAppointment, fileFilter, hmime]
        rw [hpost, createAppointment_error_iff]
        unfold CreateRequest.wellFormed
        simp only [Option.isSome_some, true_and]
        constructor
        · intro hnot
          by_contra hall
          simp only [not_or] at hall
          obtain ⟨-, -, hf, -, hd, hs, hc, hr⟩ := hall
          apply hnot
          refine ⟨⟨hf.1, hf.2.1, hf.2.2.1, hf.2.2.2.1, hf.2.2.2.2.1, hf.2.2.2.2.2.1,
            hf.2.2.2.2.2.2, by simpa using hd, by simpa using hs⟩, by simpa using hc, by omega⟩
        · rintro (⟨m, hm⟩ | ⟨u, n, hu, hbad⟩ | h | h | h | h | h | h)
            ⟨⟨h1, h2, h3, h4, h5, h6, h7, h8, h9⟩, hopen, hroom⟩
          · simp at hm
          · simp only [Multipart.file.injEq] at hu
            obtain ⟨rfl, -⟩ := hu
            exact hbad hmime
          · rcases h with h | h | h | h | h | h | h
            · exact h1 h
            · exact h2 h
            · exact h3 h
            · exact h4 h
            · exact h5 h
            · exact h6 h
            · exact h7 h
          · simp at h
          · rw [h] at h8; simp at h8
          · rw [h] at h9; simp at h9
          · rw [h] at hopen; simp at hopen
          · omega
      · have hpost : postAppointment env store fields (Multipart.file upload storedName) fresh =
            .error (errorHandler "Invalid file type. Upload PDF or JPG/PNG image.") := by
          simp only [postAppointment, fileFilter]
          rw [if_neg (by simpa using hmime)]
        rw [hpost]
        constructor
        · intro _
          exact Or.inr (Or.inl ⟨upload, storedName, rfl, hmime⟩)
        · intro _
          exact ⟨_, rfl⟩
  · rintro ⟨message, hmsg⟩
    rw [hmsg]
    rfl
  · intro written a h
    unfold postAppointment at h
    cases body with
    | refused message => simp at h
    | noFile =>
      obtain ⟨-, -, -, hw, hst, hd, hs, -⟩ := createAppointment_ok_inv env store written _ fresh a h
      exact ⟨hw, hst, hd, hs⟩
    | file upload storedName =>
      simp only at h
      cases hfilter : fileFilter upload with
      | some message => rw [hfilter] at h; simp at h
      | none =>
        rw [hfilter] at h
        obtain ⟨-, -, -, hw, hst, hd, hs, -⟩ :=
          createAppointment_ok_inv env store written _ fresh a h
        exact ⟨hw, hst, hd, hs⟩

/-- Counterexample to C16: a create request on `twoSlotStore` with every text
field filled, a file attached, a well-formed date on an open day and a valid,
empty slot is answered with an error because `fileFilter` refuses the text
file; none of the conditions listed for an error holds. -/
theorem postAppointment_rejects_file_type :
    (sampleFields "2024-01-03" "11:00").firstName ≠ "" ∧
      (sampleFields "2024-01-03" "11:00").lastName ≠ "" ∧
      (sampleFields "2024-01-03" "11:00").email ≠ "" ∧
      (sampleFields "2024-01-03" "11:00").documentType ≠ "" ∧
      (sampleFields "2024-01-03" "11:00").documentNumber ≠ "" ∧
      dateFormat "2024-01-03" = true ∧ validSlot "11:00" = true ∧
      isClosedDate defaultEnv "2024-01-03" twoSlotStore.blockedDates = false ∧
      (reservedCount twoSlotStore "2024-01-03" "11:00" : Int) <
        twoSlotStore.settings.slotCapacity ∧
      fileFilter { originalname := "notes.txt", mimetype := "text/plain", size := 10 } =
        some "Invalid file type. Upload PDF or JPG/PNG image." ∧
      postAppointment defaultEnv twoSlotStore (sampleFields "2024-01-03" "11:00")
          (Multipart.file { originalname := "notes.txt", mimetype := "text/plain", size := 10 }
            "u1.txt")
          (sampleFresh "c" "tc" 9) =
        .error "Invalid file type. Upload PDF or JPG/PNG image." :=
  ⟨by decide, by decide, by decide, by decide, by decide, by decide, by decide, by decide,
    by decide, by decide, rfl⟩

/-- Instance of amended C16: the same request with a PDF attached is served
and appends one confirmed appointment on the submitted date and slot. -/
theorem postAppointment_error_iff_witness :
    ∃ written a,
      postAppointment defaultEnv twoSlotStore (sampleFields "2024-01-03" "11:00")
          (Multipart.file
            { originalname := "passport.pdf", mimetype := "application/pdf", size := 10 }
            "u1.pdf")
          (sampleFresh "c" "tc" 9) = .ok (written, a) ∧
        written.appointments = twoSlotStore.appointments ++ [a] ∧
        a.status = Status.confirmed ∧ a.date = "2024-01-03" ∧ a.timeSlot = "11:00" :=
  have h := (postAppointment_error_iff defaultEnv twoSlotStore (sampleFields "2024-01-03" "11:00")
    (Multipart.file { originalname := "passport.pdf", mimetype := "application/pdf", size := 10 }
      "u1.pdf")
    (sampleFresh "c" "tc" 9)).2.2 _ _ rfl
  ⟨_, _, rfl, congrArg Store.appointments h.1, h.2.1, h.2.2.1, h.2.2.2⟩

/-- Evaluation for C17: in `zeroCapacityStore` (capacity 0) the Tuesday 10:00
slot is open and holds no appointment; a create for it is refused with
"Selected time slot is full." while the reschedule of `a` into it is served. -/
theorem reschedule_check_differs_from_create :
    zeroCapacityStore.settings.slotCapacity = 0 ∧
      reservedCount zeroCapacityStore "2024-01-02" "10:00" = 0 ∧
      getKey (getAvailability defaultEnv "2024-01-02" zeroCapacityStore).reservedCounts "10:00" =
        none ∧
      createAppointment defaultEnv zeroCapacityStore (sampleRequest "2024-01-02" "10:00")
          (sampleFresh "c" "tc" 9) = .error "Selected time slot is full." ∧
      rescheduleAppointment defaultEnv zeroCapacityStore "a" "ta" "2024-01-02" "10:00" 9 =
        .ok (sampleStore 0
            [ { sampleAppointment "a" "ta" "2024-01-02" "10:00" Status.rescheduled 1 with
                updatedAt := 9 } ],
          { sampleAppointment "a" "ta" "2024-01-02" "10:00" Status.rescheduled 1 with
            updatedAt := 9 }) :=
  ⟨by decide, by decide, by decide, rfl, rfl⟩

/-- Evaluation for C18: in `reactivationStore` (capacity 1) the canceled `a`
and the confirmed `b` stand on Monday 09:00, so one non-canceled appointment
other than `a` holds that pair. The admin edit of `a` that supplies the same
date and the status confirmed is not refused: the adjusted count is 1 - 1 = 0,
and the store it writes holds two non-canceled appointments on the pair. -/
theorem adminEdit_self_exclusion_on_canceled :
    reactivationStore.appointments.find? (fun item => item.id == "a") =
        some (sampleAppointment "a" "ta" "2024-01-01" "09:00" Status.canceled 1) ∧
      isClosedDate defaultEnv "2024-01-01" reactivationStore.blockedDates = false ∧
      reservedCount reactivationStore "2024-01-01" "09:00" = 1 ∧
      reactivationStore.settings.slotCapacity = 1 ∧
      adminEditAppointment defaultEnv reactivationStore "a" "confirmed" "2024-01-01" "" 7 =
        .ok (sampleStore 1
            [ { sampleAppointment "a" "ta" "2024-01-01" "09:00" Status.confirmed 1 with
                updatedAt := 7 },
              sampleAppointment "b" "tb" "2024-01-01" "09:00" Status.confirmed 2 ],
          { sampleAppointment "a" "ta" "2024-01-01" "09:00" Status.confirmed 1 with
            updatedAt := 7 }) ∧
      adminEditAppointment defaultEnv reactivationStore "a" "" "2024-01-01" "" 7 =
        .ok (sampleStore 1
            [ { sampleAppointment "a" "ta" "2024-01-01" "09:00" Status.canceled 1 with
                updatedAt := 7 },
              sampleAppointment "b" "tb" "2024-01-01" "09:00" Status.confirmed 2 ],
          { sampleAppointment "a" "ta" "2024-01-01" "09:00" Status.canceled 1 with
            updatedAt := 7 }) :=
  ⟨by decide, by decide, by decide, by decide, rfl, rfl⟩

/-- Claim C20, amended: A create request whose date is not of the form of
four digits, two digits and two digits is refused and nothing is stored, with
"Invalid date format." when the seven text fields are filled and a file is
attached; every appointment persisted by create has a date of that form.
Whether the digits name a real calendar day is not checked. -/
theorem createAppointment_date_shape (env : Env) (store : Store) (req : CreateRequest)
    (fresh : Fresh) :
    (dateFormat req.date = false →
        (∃ message, createAppointment env store req fresh = .error message) ∧
          storeAfter store (createAppointment env store req fresh) = store ∧
          (req.firstName ≠ "" → req.lastName ≠ "" → req.email ≠ "" → req.documentType ≠ "" →
            req.documentNumber ≠ "" → req.date ≠ "" → req.timeSlot ≠ "" →
            req.file.isSome = true →
            createAppointment env store req fresh = .error "Invalid date format.")) ∧
      (∀ written a, createAppointment env store req fresh = .ok (written, a) →
        a.date = req.date ∧ dateFormat a.date = true) := by
  constructor
  · intro hshape
    have herr : ∃ message, createAppointment env store req fresh = .error message := by
      rw [createAppointment_error_iff]
      rintro ⟨hwf, -⟩
      have := hwf.2.2.2.2.2.2.2.2.1
      rw [hshape] at this
      simp at this
    refine ⟨herr, ?_, ?_⟩
    · obtain ⟨message, hmsg⟩ := herr
      rw [hmsg]
      rfl
    · intro h1 h2 h3 h4 h5 h6 h7 h8
      obtain ⟨file, hfile⟩ := Option.isSome_iff_exists.mp h8
      unfold createAppointment
      simp only [h1, h2, h3, h4, h5, h6, h7, hfile, or_self, if_false, hshape, Bool.not_false,
        if_true]
  · intro written a h
    obtain ⟨hwf, -, -, -, -, hd, -⟩ := createAppointment_ok_inv env store written req fresh a h
    exact ⟨hd, by rw [hd]; exact hwf.2.2.2.2.2.2.2.2.1⟩

/-- Counterexample to C20: the date "2024-13-45" names no calendar day, yet a
create request for it on `twoSlotStore` is served and the appointment is
stored with that date (the weekday of an invalid date is `NaN`, so the date
is not closed). -/
theorem createAppointment_accepts_unreal_date :
    defaultEnv.getDay "2024-13-45" = none ∧ dateFormat "2024-13-45" = true ∧
      createAppointment defaultEnv twoSlotStore (sampleRequest "2024-13-45" "11:00")
          (sampleFresh "c" "tc" 9) =
        .ok (sampleStore 2
            [ sampleAppointment "a" "ta" "2024-01-01" "09:00" Status.confirmed 1,
              sampleAppointment "b" "tb" "2024-01-02" "10:00" Status.confirmed 2,
              { id := "c", firstName := "Omid", lastName := "Karimi",
                email := "omid@example.com", documentType := "passport",
                documentNumber := "P456", documentFile := sampleFile, manageToken := "tc",
                date := "2024-13-45", timeSlot := "11:00", status := Status.confirmed,
                createdAt := 9, updatedAt := 9 } ],
          { id := "c", firstName := "Omid", lastName := "Karimi",
            email := "omid@example.com", documentType := "passport",
            documentNumber := "P456", documentFile := sampleFile, manageToken := "tc",
            date := "2024-13-45", timeSlot := "11:00", status := Status.confirmed,
            createdAt := 9, updatedAt := 9 }) :=
  ⟨by decide, by decide, rfl⟩

/-- Instance of amended C20: the date "2024-1-2" is refused with "Invalid date
format." and `twoSlotStore` stays as it was. -/
theorem createAppointment_date_shape_witness :
    createAppointment defaultEnv twoSlotStore (sampleRequest "2024-1-2" "11:00")
        (sampleFresh "c" "tc" 9) = .error "Invalid date format." ∧
      storeAfter twoSlotStore
        (createAppointment defaultEnv twoSlotStore (sampleRequest "2024-1-2" "11:00")
          (sampleFresh "c" "tc" 9)) = twoSlotStore :=
  have h := (createAppointment_date_shape defaultEnv twoSlotStore
    (sampleRequest "2024-1-2" "11:00") (sampleFresh "c" "tc" 9)).1 (by decide)
  ⟨h.2.2 (by decide) (by decide) (by decide) (by decide) (by decide) (by decide) (by decide)
    (by decide), h.2.1⟩

end ElyassiExchange
